import Mathlib

/-!
# reSIDfp 8580 integrator (`Integrator8580.h`) and the buffer cursor (`SmartPtr.h`)

A shallow embedding of the class `reSIDfp::Integrator8580` and of the class templates
`SmartPtrBase_sidtt` and `SmartPtr_sidtt`, and theorems about them.  The definitions of
both come first, the theorems after them.

Conventions of the embedding of the integrator:

* `float` and `double` values are exact rationals (`ℚ`): every arithmetic step is
  taken exactly, rounding and the IEEE special values are left out.
* `assert` of `<cassert>` is fallible: a member function that contains one returns
  an `Option`, `none` standing for the aborted call.  The flag `NDEBUG` says
  whether the translation unit was compiled with `NDEBUG` defined, in which case
  `assert` expands to nothing.
* the object is passed explicitly: a mutating member function takes the object
  and returns the updated one.
* `InterpolatedLUT.h` is not part of the sources at hand; the table is taken as
  a parameter through its single operation `output`.
-/

namespace reSIDfp

/-! ## Definitions -/

/-- Interface of the op-amp transfer table (`LUT` of `InterpolatedLUT.h`), used by the
integrator only through `output`. -/
structure LUT where
  output : ℚ → ℚ

/-- The `assert(c)` of `<cassert>`: nothing when `NDEBUG` is defined, otherwise the call
is aborted when `c` is false. -/
def assert (NDEBUG : Bool) (c : Prop) [Decidable c] : Option Unit :=
  if NDEBUG = true ∨ c then some () else none

/-- Data members of `class Integrator8580`, in declaration order. -/
structure Integrator8580 where
  opamp_rev : LUT
  vx : ℚ
  vc : ℚ
  nVgt : ℚ
  n_dac : ℚ
  Vth : ℚ
  nKp : ℚ
  vmin : ℚ
  N16 : ℚ

/-- `void setFc(double wl)`. -/
def Integrator8580.setFc (s : Integrator8580) (wl : ℚ) : Integrator8580 :=
  -- Normalized current factor, 1 cycle at 1MHz.
  let tmp := s.nKp * wl
  { s with n_dac := tmp }

/-- `void setV(double v)`: set FC gate voltage multiplier. -/
def Integrator8580.setV (NDEBUG : Bool) (s : Integrator8580) (v : ℚ) :
    Option Integrator8580 := do
  let Vg := 4.76 * v
  let Vgt := Vg - s.Vth
  let tmp := s.N16 * (Vgt - s.vmin)
  assert NDEBUG (tmp > -0.5 ∧ tmp < 65535.5)
  pure { s with nVgt := tmp }

/-- The constructor `Integrator8580(opamp_rev, Vth, denorm, C, uCox, vmin, N16)`.
The member initialiser list leaves `nVgt` and `n_dac` without a value; `nVgt0` and
`n_dac0` stand for whatever these two members hold when the body starts. -/
def Integrator8580.new (NDEBUG : Bool) (opamp_rev : LUT)
    (Vth denorm C uCox vmin N16 : ℚ) (nVgt0 n_dac0 : ℚ) : Option Integrator8580 :=
  Integrator8580.setV NDEBUG
    { opamp_rev := opamp_rev
      vx := 0
      vc := 0
      nVgt := nVgt0
      n_dac := n_dac0
      Vth := Vth
      nKp := denorm * (uCox / 2 * 1.0e-6 / C)
      vmin := vmin
      N16 := N16 }
    1.5

/-- `float solve(float vi) const`: returns the output voltage together with the object
whose `mutable` members `vx` and `vc` have been advanced. -/
def Integrator8580.solve (NDEBUG : Bool) (s : Integrator8580) (vi : ℚ) :
    Option (ℚ × Integrator8580) := do
  -- Make sure we're not in subthreshold mode
  assert NDEBUG (s.vx < s.nVgt)
  -- DAC voltages
  let Vgst := s.nVgt - s.vx
  let Vgdt := if vi < s.nVgt then s.nVgt - vi else 0
  let Vgst_2 := Vgst * Vgst
  let Vgdt_2 := Vgdt * Vgdt
  -- DAC current
  let n_I_dac := s.n_dac * (Vgst_2 - Vgdt_2)
  -- Change in capacitor charge.
  let vc := s.vc + n_I_dac
  -- vx = g(vc)
  let tmp := (vc / (65536 : ℚ) / (2 : ℚ)) + ((1 <<< 15 : ℕ) : ℚ)
  assert NDEBUG (tmp < ((1 <<< 16 : ℕ) : ℚ))
  let vx := s.opamp_rev.output tmp
  -- Return vo.
  pure (vx - (vc / (65536 : ℚ)), { s with vx := vx, vc := vc })

/-- One call made on an integrator by the filter that owns it. -/
inductive Call where
  | setFc (wl : ℚ)
  | setV (v : ℚ)
  | solve (vi : ℚ)

/-- Performs one call on the object; a `solve` call also yields its return value. -/
def Integrator8580.call (NDEBUG : Bool) (s : Integrator8580) :
    Call → Option (Option ℚ × Integrator8580)
  | Call.setFc wl => some (none, s.setFc wl)
  | Call.setV v => (s.setV NDEBUG v).map (fun t => (none, t))
  | Call.solve vi => (s.solve NDEBUG vi).map (fun r => (some r.1, r.2))

/-- Performs a sequence of calls in order, collecting the values returned by the `solve`
calls; `none` as soon as one call is aborted by an assertion. -/
def Integrator8580.run (NDEBUG : Bool) (s : Integrator8580) :
    List Call → Option (List ℚ × Integrator8580)
  | [] => some ([], s)
  | c :: cs =>
    match s.call NDEBUG c with
    | none => none
    | some (o, t) =>
      match t.run NDEBUG cs with
      | none => none
      | some (os, u) => some (o.toList ++ os, u)

/-- A table that returns its argument, so that the new `vx` shows the lookup argument. -/
def identityLUT : LUT := ⟨fun x => x⟩

/-- A sample object: `vx = 0`, `vc = 0`, `nVgt = 512`, `n_dac = 1`. -/
def sampleIntegrator : Integrator8580 :=
  { opamp_rev := identityLUT
    vx := 0
    vc := 0
    nVgt := 512
    n_dac := 1
    Vth := 6.14
    nKp := 5 / 47
    vmin := 0
    N16 := 512 }

/-- An object as construction leaves it for `Vth = 7.5`, `vmin = 0`, `N16 = 1`:
`nVgt = 4.76 * 1.5 - 7.5 = -0.36`. -/
def lowGateIntegrator : Integrator8580 :=
  { opamp_rev := identityLUT
    vx := 0
    vc := 0
    nVgt := -0.36
    n_dac := 0
    Vth := 7.5
    nKp := 5 / 47
    vmin := 0
    N16 := 1 }

/-- An object as construction and `setFc(9.4)` leave it for `Vth = 6.64`, `vmin = 0`,
`N16 = 65536`: `nVgt = 65536 * (4.76 * 1.5 - 6.64) = 32768`. -/
def unitScaleIntegrator : Integrator8580 :=
  { opamp_rev := identityLUT
    vx := 0
    vc := 0
    nVgt := 32768
    n_dac := 1
    Vth := 6.64
    nKp := 5 / 47
    vmin := 0
    N16 := 65536 }

end reSIDfp

/-! ## Definitions for `SmartPtr.h`

Conventions of the embedding:

* a `T*` is an integer address counted in elements of `T`, the null pointer being `0`;
  pointer arithmetic and pointer comparison are integer arithmetic, without wrap-around.
  A 64-bit machine reduces addresses modulo `2 ^ 64`, which shows in `operator -=` when
  the offset exceeds the address of the cursor: `operator_sub_assign_wrap` is
  `operator -=` with that reduction, for a `T` of one byte.
* memory is a map `mem : ℤ → Option T` giving the element stored at an address, `none`
  where no element of a live array is stored.  Reading such an address is undefined
  behaviour: the member function that does it returns `none`.
* `ulint_smartpt` values are natural numbers; the conversion of a pointer difference to
  `ulint_smartpt` in `tellPos` reduces modulo `2 ^ 64`.
* `operator[]` returns a reference in the source; here it returns the element referred
  to.  The destructor is left out.
-/

/-- `typedef unsigned long int ulint_smartpt;` -/
abbrev ulint_smartpt := ℕ

/-- Data members of `class SmartPtrBase_sidtt`, in declaration order. -/
structure SmartPtrBase_sidtt (T : Type) where
  bufBegin : ℤ
  bufEnd : ℤ
  pBufCurrent : ℤ
  bufLen : ulint_smartpt
  status : Bool
  doFree : Bool
  dummy : T
  deriving DecidableEq

/-- The constructor `SmartPtrBase_sidtt(T* buffer, ulint_smartpt bufferLen, bool bufOwner)`. -/
def SmartPtrBase_sidtt.new {T : Type} [Zero T] (buffer : ℤ) (bufferLen : ulint_smartpt)
    (bufOwner : Bool) : SmartPtrBase_sidtt T :=
  if bufferLen ≠ 0 then
    { bufBegin := buffer
      pBufCurrent := buffer
      bufEnd := buffer + bufferLen
      bufLen := bufferLen
      status := true
      doFree := bufOwner
      dummy := 0 }
  else
    { bufBegin := 0
      pBufCurrent := 0
      bufEnd := 0
      bufLen := 0
      status := false
      doFree := bufOwner
      dummy := 0 }

/-- `virtual T* tellBegin() const`. -/
def SmartPtrBase_sidtt.tellBegin {T : Type} (s : SmartPtrBase_sidtt T) : ℤ :=
  s.bufBegin

/-- `virtual ulint_smartpt tellLength() const`. -/
def SmartPtrBase_sidtt.tellLength {T : Type} (s : SmartPtrBase_sidtt T) : ulint_smartpt :=
  s.bufLen

/-- `virtual ulint_smartpt tellPos() const`. -/
def SmartPtrBase_sidtt.tellPos {T : Type} (s : SmartPtrBase_sidtt T) : ulint_smartpt :=
  ((s.pBufCurrent - s.bufBegin) % (2 ^ 64 : ℤ)).toNat

/-- `virtual bool checkIndex(ulint_smartpt index)`. -/
def SmartPtrBase_sidtt.checkIndex {T : Type} (s : SmartPtrBase_sidtt T)
    (index : ulint_smartpt) : Bool :=
  decide (s.pBufCurrent + (index : ℤ) < s.bufEnd)

/-- `virtual bool reset()`: the returned value and the updated object. -/
def SmartPtrBase_sidtt.reset {T : Type} (s : SmartPtrBase_sidtt T) :
    Bool × SmartPtrBase_sidtt T :=
  if s.bufLen ≠ 0 then
    (true, { s with pBufCurrent := s.bufBegin, status := true })
  else
    (false, { s with status := false })

/-- `virtual bool good()`. -/
def SmartPtrBase_sidtt.good {T : Type} (s : SmartPtrBase_sidtt T) : Bool :=
  decide (s.pBufCurrent < s.bufEnd)

/-- `virtual bool fail()`. -/
def SmartPtrBase_sidtt.fail {T : Type} (s : SmartPtrBase_sidtt T) : Bool :=
  decide (s.pBufCurrent = s.bufEnd)

/-- `virtual void operator ++()`. -/
def SmartPtrBase_sidtt.operator_inc {T : Type} (s : SmartPtrBase_sidtt T) :
    SmartPtrBase_sidtt T :=
  if s.good then
    { s with pBufCurrent := s.pBufCurrent + 1 }
  else
    { s with status := false }

/-- `virtual void operator ++(int)`. -/
def SmartPtrBase_sidtt.operator_inc_int {T : Type} (s : SmartPtrBase_sidtt T) :
    SmartPtrBase_sidtt T :=
  if s.good then
    { s with pBufCurrent := s.pBufCurrent + 1 }
  else
    { s with status := false }

/-- `virtual void operator --()`. -/
def SmartPtrBase_sidtt.operator_dec {T : Type} (s : SmartPtrBase_sidtt T) :
    SmartPtrBase_sidtt T :=
  if !s.fail then
    { s with pBufCurrent := s.pBufCurrent - 1 }
  else
    { s with status := false }

/-- `virtual void operator --(int)`. -/
def SmartPtrBase_sidtt.operator_dec_int {T : Type} (s : SmartPtrBase_sidtt T) :
    SmartPtrBase_sidtt T :=
  if !s.fail then
    { s with pBufCurrent := s.pBufCurrent - 1 }
  else
    { s with status := false }

/-- `virtual void operator +=(ulint_smartpt offset)`. -/
def SmartPtrBase_sidtt.operator_add_assign {T : Type} (s : SmartPtrBase_sidtt T)
    (offset : ulint_smartpt) : SmartPtrBase_sidtt T :=
  if s.checkIndex offset then
    { s with pBufCurrent := s.pBufCurrent + (offset : ℤ) }
  else
    { s with status := false }

/-- `virtual void operator -=(ulint_smartpt offset)`. -/
def SmartPtrBase_sidtt.operator_sub_assign {T : Type} (s : SmartPtrBase_sidtt T)
    (offset : ulint_smartpt) : SmartPtrBase_sidtt T :=
  if s.pBufCurrent - (offset : ℤ) ≥ s.bufBegin then
    { s with pBufCurrent := s.pBufCurrent - (offset : ℤ) }
  else
    { s with status := false }

/-- The pointer `p - offset` as a 64-bit machine computes it for a `T` of one byte: the
address is reduced modulo `2 ^ 64`. -/
def ptr_sub64 (p : ℤ) (offset : ulint_smartpt) : ℤ :=
  (p - (offset : ℤ)) % (2 ^ 64 : ℤ)

/-- `virtual void operator -=(ulint_smartpt offset)` with `pBufCurrent - offset` computed
in 64-bit addresses. -/
def SmartPtrBase_sidtt.operator_sub_assign_wrap {T : Type} (s : SmartPtrBase_sidtt T)
    (offset : ulint_smartpt) : SmartPtrBase_sidtt T :=
  if ptr_sub64 s.pBufCurrent offset ≥ s.bufBegin then
    { s with pBufCurrent := ptr_sub64 s.pBufCurrent offset }
  else
    { s with status := false }

/-- `virtual T operator*()`: the returned element and the updated object; `none` when
the element read is not in memory. -/
def SmartPtrBase_sidtt.operator_deref {T : Type} (mem : ℤ → Option T)
    (s : SmartPtrBase_sidtt T) : Option (T × SmartPtrBase_sidtt T) :=
  if s.good then
    (mem s.pBufCurrent).map (fun x => (x, s))
  else
    some (s.dummy, { s with status := false })

/-- `virtual T& operator [](ulint_smartpt index)`: the element referred to and the updated
object; `none` when that element is not in memory. -/
def SmartPtrBase_sidtt.operator_index {T : Type} (mem : ℤ → Option T)
    (s : SmartPtrBase_sidtt T) (index : ulint_smartpt) : Option (T × SmartPtrBase_sidtt T) :=
  if s.checkIndex index then
    (mem (s.pBufCurrent + (index : ℤ))).map (fun x => (x, s))
  else
    some (s.dummy, { s with status := false })

/-- `virtual operator bool()`. -/
def SmartPtrBase_sidtt.operator_bool {T : Type} (s : SmartPtrBase_sidtt T) : Bool :=
  s.status

/-- `class SmartPtr_sidtt final : public SmartPtrBase_sidtt<T>` adds no data member. -/
abbrev SmartPtr_sidtt (T : Type) := SmartPtrBase_sidtt T

/-- The constructor `SmartPtr_sidtt(T* buffer, ulint_smartpt bufferLen, bool bufOwner)`. -/
def SmartPtr_sidtt.new {T : Type} [Zero T] (buffer : ℤ) (bufferLen : ulint_smartpt)
    (bufOwner : Bool) : SmartPtr_sidtt T :=
  SmartPtrBase_sidtt.new buffer bufferLen bufOwner

/-- The default constructor `SmartPtr_sidtt()`. -/
def SmartPtr_sidtt.new0 {T : Type} [Zero T] : SmartPtr_sidtt T :=
  SmartPtrBase_sidtt.new 0 0 false

/-- `void setBuffer(T* buffer, ulint_smartpt bufferLen)`. -/
def SmartPtr_sidtt.setBuffer {T : Type} (s : SmartPtr_sidtt T) (buffer : ℤ)
    (bufferLen : ulint_smartpt) : SmartPtr_sidtt T :=
  if bufferLen ≠ 0 then
    { s with
      bufBegin := buffer
      pBufCurrent := buffer
      bufEnd := buffer + bufferLen
      bufLen := bufferLen
      status := true }
  else
    { s with
      bufBegin := 0
      pBufCurrent := 0
      bufEnd := 0
      bufLen := 0
      status := false }

/-- One operation performed on a cursor.  The member functions that only report
(`tellBegin`, `tellLength`, `tellPos`, `checkIndex`, `good`, `fail`, `operator bool`)
leave the object as it is and are not listed. -/
inductive CursorOp where
  | inc
  | inc_int
  | dec
  | dec_int
  | add_assign (offset : ulint_smartpt)
  | sub_assign (offset : ulint_smartpt)
  | deref
  | index (index : ulint_smartpt)
  | reset
  | setBuffer (buffer : ℤ) (bufferLen : ulint_smartpt)
  deriving DecidableEq

/-- Performs one operation on the cursor, over the memory `mem`; `none` when the
operation reads an element that is not in memory. -/
def SmartPtrBase_sidtt.call {T : Type} (mem : ℤ → Option T) (s : SmartPtrBase_sidtt T) :
    CursorOp → Option (SmartPtrBase_sidtt T)
  | CursorOp.inc => some s.operator_inc
  | CursorOp.inc_int => some s.operator_inc_int
  | CursorOp.dec => some s.operator_dec
  | CursorOp.dec_int => some s.operator_dec_int
  | CursorOp.add_assign offset => some (s.operator_add_assign offset)
  | CursorOp.sub_assign offset => some (s.operator_sub_assign offset)
  | CursorOp.deref => (s.operator_deref mem).map Prod.snd
  | CursorOp.index index => (s.operator_index mem index).map Prod.snd
  | CursorOp.reset => some s.reset.2
  | CursorOp.setBuffer buffer bufferLen => some (SmartPtr_sidtt.setBuffer s buffer bufferLen)

/-- Performs a sequence of operations in order. -/
def SmartPtrBase_sidtt.run {T : Type} (mem : ℤ → Option T) (s : SmartPtrBase_sidtt T) :
    List CursorOp → Option (SmartPtrBase_sidtt T)
  | [] => some s
  | op :: ops =>
    match s.call mem op with
    | none => none
    | some t => t.run mem ops

/-- Memory that holds the array `data` at address `buffer` and nothing else. -/
def arrayAt {T : Type} (buffer : ℤ) (data : List T) : ℤ → Option T :=
  fun a => if buffer ≤ a then data[(a - buffer).toNat]? else none

/-- What the constructors establish and, with pointer arithmetic that does not wrap
around, every operation keeps: `bufEnd` is `bufLen` elements past `bufBegin`, the cursor is not past `bufEnd`, and over an empty buffer the
cursor sits at `bufEnd` with `status` false. -/
def SmartPtrBase_sidtt.Inv {T : Type} (s : SmartPtrBase_sidtt T) : Prop :=
  s.bufEnd = s.bufBegin + (s.bufLen : ℤ) ∧ s.pBufCurrent ≤ s.bufEnd ∧
    (s.bufLen = 0 → s.pBufCurrent = s.bufEnd ∧ s.status = false)

/-- A three-element array, placed at address `1000`. -/
def sampleBuffer : List ℕ := [7, 8, 9]

/-- A cursor constructed over `sampleBuffer`. -/
def sampleCursor : SmartPtr_sidtt ℕ := SmartPtr_sidtt.new 1000 3 false

/-- The cursor `sampleCursor` after a refused `-= 1`: position `0`, `status` false. -/
def failedCursor : SmartPtr_sidtt ℕ := sampleCursor.operator_sub_assign 1

namespace reSIDfp

/-! ## Auxiliary lemmas -/

theorem shiftLeft_15_cast : ((1 <<< 15 : ℕ) : ℚ) = 32768 := by
  rw [show (1 <<< 15 : ℕ) = 32768 from rfl]; norm_num

theorem shiftLeft_16_cast : ((1 <<< 16 : ℕ) : ℚ) = 65536 := by
  rw [show (1 <<< 16 : ℕ) = 65536 from rfl]; norm_num

theorem assert_bind_eq_some (NDEBUG : Bool) (c : Prop) [Decidable c] {α : Type}
    (k : Unit → Option α) (r : α) :
    (assert NDEBUG c >>= k) = some r ↔ (NDEBUG = true ∨ c) ∧ k () = some r := by
  unfold assert; split_ifs with h <;> simp [h]

theorem assert_bind_eq_none (NDEBUG : Bool) (c : Prop) [Decidable c] {α : Type}
    (k : Unit → Option α) (h : ¬ (NDEBUG = true ∨ c)) :
    (assert NDEBUG c >>= k) = none := by
  unfold assert; simp [h]

/-- Everything a completed `solve` call determines. -/
theorem solve_eq_some (NDEBUG : Bool) (s : Integrator8580) (vi out : ℚ) (t : Integrator8580)
    (h : s.solve NDEBUG vi = some (out, t)) :
    (NDEBUG = true ∨ s.vx < s.nVgt) ∧
    (NDEBUG = true ∨ t.vc / 65536 / 2 + 32768 < 65536) ∧
    t.vc = s.vc + s.n_dac * ((s.nVgt - s.vx) * (s.nVgt - s.vx)
      - (if vi < s.nVgt then s.nVgt - vi else 0) * (if vi < s.nVgt then s.nVgt - vi else 0)) ∧
    t.vx = s.opamp_rev.output (t.vc / 65536 / 2 + 32768) ∧
    out = t.vx - t.vc / 65536 ∧
    t = { s with vx := t.vx, vc := t.vc } := by
  unfold Integrator8580.solve at h
  rw [shiftLeft_15_cast, shiftLeft_16_cast] at h
  simp only [assert_bind_eq_some, Option.pure_def, Option.some.injEq, Prod.mk.injEq] at h
  obtain ⟨h1, h2, h3, h4⟩ := h
  subst h4
  subst h3
  exact ⟨h1, h2, rfl, rfl, rfl, rfl⟩

/-- Without assertions (`NDEBUG` defined) `solve` completes on every object and input. -/
theorem solve_NDEBUG_isSome (s : Integrator8580) (vi : ℚ) :
    ∃ out t, s.solve true vi = some (out, t) := by
  unfold Integrator8580.solve
  simp [assert]

/-- With assertions, `solve` completes when both asserted conditions hold. -/
theorem solve_isSome_of_asserts (NDEBUG : Bool) (s : Integrator8580) (vi : ℚ)
    (h1 : s.vx < s.nVgt)
    (h2 : (s.vc + s.n_dac * ((s.nVgt - s.vx) * (s.nVgt - s.vx)
      - (if vi < s.nVgt then s.nVgt - vi else 0) * (if vi < s.nVgt then s.nVgt - vi else 0)))
        / 65536 / 2 + 32768 < 65536) :
    ∃ out t, s.solve NDEBUG vi = some (out, t) := by
  have e15 : ((1 <<< 15 : ℕ) : ℚ) = 32768 := shiftLeft_15_cast
  have e16 : ((1 <<< 16 : ℕ) : ℚ) = 65536 := shiftLeft_16_cast
  simp only [Integrator8580.solve, assert, e15, e16, h1, h2, or_true, if_true]
  exact ⟨_, _, rfl⟩

theorem sampleIntegrator_solve :
    sampleIntegrator.solve false 256 =
      some (32766.5, { sampleIntegrator with vx := 32769.5, vc := 196608 }) := by
  simp [Integrator8580.solve, assert, sampleIntegrator, identityLUT]
  norm_num

theorem sampleIntegrator_solve_boundary :
    sampleIntegrator.solve false 512 =
      some (32766, { sampleIntegrator with vx := 32770, vc := 262144 }) := by
  simp [Integrator8580.solve, assert, sampleIntegrator, identityLUT]
  norm_num

/-- Everything a completed `setV` call determines. -/
theorem setV_eq_some (NDEBUG : Bool) (s : Integrator8580) (v : ℚ) (t : Integrator8580) :
    s.setV NDEBUG v = some t ↔
      (NDEBUG = true ∨
        (s.N16 * (4.76 * v - s.Vth - s.vmin) > -0.5 ∧
          s.N16 * (4.76 * v - s.Vth - s.vmin) < 65535.5)) ∧
      t = { s with nVgt := s.N16 * (4.76 * v - s.Vth - s.vmin) } := by
  unfold Integrator8580.setV
  simp only [assert_bind_eq_some, Option.pure_def, Option.some.injEq]
  constructor
  · rintro ⟨h1, h2⟩
    exact ⟨h1, h2.symm⟩
  · rintro ⟨h1, h2⟩
    exact ⟨h1, h2.symm⟩

/-- Everything a completed construction determines. -/
theorem new_eq_some (NDEBUG : Bool) (opamp_rev : LUT) (Vth denorm C uCox vmin N16 : ℚ)
    (nVgt0 n_dac0 : ℚ) (s : Integrator8580) :
    Integrator8580.new NDEBUG opamp_rev Vth denorm C uCox vmin N16 nVgt0 n_dac0 = some s ↔
      (NDEBUG = true ∨
        (N16 * (4.76 * 1.5 - Vth - vmin) > -0.5 ∧ N16 * (4.76 * 1.5 - Vth - vmin) < 65535.5)) ∧
      s = { opamp_rev := opamp_rev
            vx := 0
            vc := 0
            nVgt := N16 * (4.76 * 1.5 - Vth - vmin)
            n_dac := n_dac0
            Vth := Vth
            nKp := denorm * (uCox / 2 * 1.0e-6 / C)
            vmin := vmin
            N16 := N16 } := by
  unfold Integrator8580.new
  rw [setV_eq_some]

/-- The construction constants and the table are not touched by any call. -/
theorem call_constants (NDEBUG : Bool) (s : Integrator8580) (c : Call) (o : Option ℚ)
    (t : Integrator8580) (h : s.call NDEBUG c = some (o, t)) :
    t.opamp_rev = s.opamp_rev ∧ t.Vth = s.Vth ∧ t.nKp = s.nKp ∧ t.vmin = s.vmin ∧
      t.N16 = s.N16 := by
  cases c with
  | setFc wl =>
    simp only [Integrator8580.call, Option.some.injEq, Prod.mk.injEq] at h
    obtain ⟨-, rfl⟩ := h
    exact ⟨rfl, rfl, rfl, rfl, rfl⟩
  | setV v =>
    simp only [Integrator8580.call, Option.map_eq_some', Prod.mk.injEq] at h
    obtain ⟨u, hu, -, rfl⟩ := h
    obtain ⟨-, rfl⟩ := (setV_eq_some NDEBUG s v u).mp hu
    exact ⟨rfl, rfl, rfl, rfl, rfl⟩
  | solve vi =>
    simp only [Integrator8580.call, Option.map_eq_some', Prod.mk.injEq] at h
    obtain ⟨⟨out, u⟩, hu, -, rfl⟩ := h
    obtain ⟨-, -, -, -, -, hs⟩ := solve_eq_some NDEBUG s vi out u hu
    rw [hs]
    exact ⟨rfl, rfl, rfl, rfl, rfl⟩

/-- A completed non-empty run splits into its first call and the rest. -/
theorem run_cons_eq_some (NDEBUG : Bool) (s : Integrator8580) (c : Call) (cs : List Call)
    (outs : List ℚ) (u : Integrator8580) (h : s.run NDEBUG (c :: cs) = some (outs, u)) :
    ∃ o t os, s.call NDEBUG c = some (o, t) ∧ t.run NDEBUG cs = some (os, u) ∧
      outs = o.toList ++ os := by
  rw [Integrator8580.run] at h
  cases hc : s.call NDEBUG c with
  | none => rw [hc] at h; cases h
  | some r =>
    obtain ⟨o, t⟩ := r
    rw [hc] at h
    dsimp only at h
    cases hr : t.run NDEBUG cs with
    | none => rw [hr] at h; cases h
    | some q =>
      obtain ⟨os, w⟩ := q
      rw [hr] at h
      simp only [Option.some.injEq, Prod.mk.injEq] at h
      obtain ⟨h1, h2⟩ := h
      subst h2
      exact ⟨o, t, os, rfl, hr, h1.symm⟩

/-- The construction constants and the table are not touched by any sequence of calls. -/
theorem run_constants (NDEBUG : Bool) (calls : List Call) :
    ∀ (s : Integrator8580) (outs : List ℚ) (u : Integrator8580),
      s.run NDEBUG calls = some (outs, u) →
      u.opamp_rev = s.opamp_rev ∧ u.Vth = s.Vth ∧ u.nKp = s.nKp ∧ u.vmin = s.vmin ∧
        u.N16 = s.N16 := by
  induction calls with
  | nil =>
    intro s outs u h
    simp only [Integrator8580.run, Option.some.injEq, Prod.mk.injEq] at h
    obtain ⟨-, rfl⟩ := h
    exact ⟨rfl, rfl, rfl, rfl, rfl⟩
  | cons c cs ih =>
    intro s outs u h
    obtain ⟨o, t, os, hc, hr, -⟩ := run_cons_eq_some NDEBUG s c cs outs u h
    obtain ⟨a1, a2, a3, a4, a5⟩ := call_constants NDEBUG s c o t hc
    obtain ⟨b1, b2, b3, b4, b5⟩ := ih t os u hr
    exact ⟨b1.trans a1, b2.trans a2, b3.trans a3, b4.trans a4, b5.trans a5⟩

/-- Running a sequence followed by one more call: the sequence itself completes, and the
last call is made on the object it leaves. -/
theorem run_append_singleton (NDEBUG : Bool) (calls : List Call) (c : Call) :
    ∀ (s : Integrator8580) (outs : List ℚ) (u : Integrator8580),
      s.run NDEBUG (calls ++ [c]) = some (outs, u) →
      ∃ outs0 t o, s.run NDEBUG calls = some (outs0, t) ∧ t.call NDEBUG c = some (o, u) := by
  induction calls with
  | nil =>
    intro s outs u h
    obtain ⟨o, t, os, hc, hr, -⟩ := run_cons_eq_some NDEBUG s c [] outs u h
    simp only [Integrator8580.run, Option.some.injEq, Prod.mk.injEq] at hr
    obtain ⟨-, rfl⟩ := hr
    exact ⟨[], s, o, rfl, hc⟩
  | cons d ds ih =>
    intro s outs u h
    obtain ⟨o, t, os, hc, hr, -⟩ := run_cons_eq_some NDEBUG s d (ds ++ [c]) outs u h
    obtain ⟨outs0, w, o2, hw, hlast⟩ := ih t os u hr
    refine ⟨o.toList ++ outs0, w, o2, ?_, hlast⟩
    rw [Integrator8580.run, hc]
    simp only [hw]

/-- The sample object is what construction followed by `setFc(9.4)` yields. -/
theorem sampleIntegrator_new :
    Integrator8580.new false identityLUT 6.14 1.0 470e-12 1.0e-4 0 512 0 0
      = some { sampleIntegrator with n_dac := 0 } := by
  rw [new_eq_some]
  refine ⟨Or.inr (by norm_num), ?_⟩
  simp only [sampleIntegrator]
  norm_num

theorem sampleIntegrator_run :
    ({ sampleIntegrator with n_dac := 0 } : Integrator8580).run false [Call.setFc 9.4]
      = some ([], sampleIntegrator) := by
  simp [Integrator8580.run, Integrator8580.call, Integrator8580.setFc, sampleIntegrator]
  norm_num

theorem sampleIntegrator_setV :
    sampleIntegrator.setV false 1.6 = some { sampleIntegrator with nVgt := 755.712 } := by
  rw [setV_eq_some]
  refine ⟨Or.inr (by norm_num [sampleIntegrator]), ?_⟩
  simp only [sampleIntegrator]
  norm_num

theorem sampleIntegrator_run_solve :
    ({ sampleIntegrator with n_dac := 0 } : Integrator8580).run false
        ([Call.setFc 9.4] ++ [Call.solve 256])
      = some ([32766.5], { sampleIntegrator with vx := 32769.5, vc := 196608 }) := by
  have h1 : ({ sampleIntegrator with n_dac := 0 } : Integrator8580).setFc 9.4
      = sampleIntegrator := by
    simp only [Integrator8580.setFc, sampleIntegrator]
    norm_num
  simp only [List.singleton_append, Integrator8580.run, Integrator8580.call, h1,
    sampleIntegrator_solve, Option.map_some', Option.toList, List.nil_append,
    List.append_nil, List.singleton_append]

theorem sampleIntegrator_solve_low :
    sampleIntegrator.solve false (-130560) =
      some (163838, { sampleIntegrator with vx := -98302, vc := -17179607040 }) := by
  simp [Integrator8580.solve, assert, sampleIntegrator, identityLUT]
  norm_num

theorem lowGateIntegrator_new :
    Integrator8580.new false identityLUT 7.5 1.0 470e-12 1.0e-4 0 1 0 0
      = some lowGateIntegrator := by
  rw [new_eq_some]
  refine ⟨Or.inr (by norm_num), ?_⟩
  simp only [lowGateIntegrator]
  norm_num

/-- Calling `setV(1.5)` on a freshly constructed object returns the same object. -/
theorem setV_after_new (NDEBUG : Bool) (opamp_rev : LUT)
    (Vth denorm C uCox vmin N16 nVgt0 n_dac0 : ℚ) (s : Integrator8580)
    (hnew : Integrator8580.new NDEBUG opamp_rev Vth denorm C uCox vmin N16 nVgt0 n_dac0
      = some s) :
    s.setV NDEBUG 1.5 = some s := by
  obtain ⟨hr, rfl⟩ := (new_eq_some _ _ _ _ _ _ _ _ _ _ _).mp hnew
  exact (setV_eq_some _ _ _ _).mpr ⟨hr, rfl⟩

/-- With or without assertions, `solve` completes when each asserted condition holds or
is compiled out. -/
theorem solve_isSome_of_checks (NDEBUG : Bool) (s : Integrator8580) (vi : ℚ)
    (h1 : NDEBUG = true ∨ s.vx < s.nVgt)
    (h2 : NDEBUG = true ∨ (s.vc + s.n_dac * ((s.nVgt - s.vx) * (s.nVgt - s.vx)
      - (if vi < s.nVgt then s.nVgt - vi else 0) * (if vi < s.nVgt then s.nVgt - vi else 0)))
        / 65536 / 2 + 32768 < 65536) :
    ∃ out t, s.solve NDEBUG vi = some (out, t) := by
  have e15 : ((1 <<< 15 : ℕ) : ℚ) = 32768 := shiftLeft_15_cast
  have e16 : ((1 <<< 16 : ℕ) : ℚ) = 65536 := shiftLeft_16_cast
  simp only [Integrator8580.solve, assert, e15, e16, h1, h2, if_true]
  exact ⟨_, _, rfl⟩

/-- The drain-side term of `solve` does not grow with the input and is never negative. -/
theorem Vgdt_antitone (g vi1 vi2 : ℚ) (hle : vi1 ≤ vi2) :
    0 ≤ (if vi2 < g then g - vi2 else 0) ∧
      (if vi2 < g then g - vi2 else 0) ≤ (if vi1 < g then g - vi1 else 0) := by
  split_ifs with h2 h1 h1
  · exact ⟨by linarith, by linarith⟩
  · exact absurd (lt_of_le_of_lt hle h2) h1
  · exact ⟨le_refl 0, by linarith⟩
  · exact ⟨le_refl 0, le_refl 0⟩

theorem unitScaleIntegrator_solve :
    unitScaleIntegrator.solve false 16384 =
      some (26624, { unitScaleIntegrator with vx := 38912, vc := 805306368 }) := by
  simp [Integrator8580.solve, assert, unitScaleIntegrator, identityLUT]
  norm_num

theorem sampleIntegrator_new_one :
    Integrator8580.new false identityLUT 6.14 1.0 470e-12 1.0e-4 0 512 0 1
      = some sampleIntegrator := by
  rw [new_eq_some]
  refine ⟨Or.inr (by norm_num), ?_⟩
  simp only [sampleIntegrator]
  norm_num

theorem sampleIntegrator_run_solve_only :
    sampleIntegrator.run false [Call.solve 256]
      = some ([32766.5], { sampleIntegrator with vx := 32769.5, vc := 196608 }) := by
  simp only [Integrator8580.run, Integrator8580.call, sampleIntegrator_solve,
    Option.map_some', Option.toList, List.append_nil]

theorem zeroScale_solve :
    ({ sampleIntegrator with n_dac := 0 } : Integrator8580).solve false 256 =
      some (32768, { sampleIntegrator with n_dac := 0, vx := 32768, vc := 0 }) := by
  simp [Integrator8580.solve, assert, sampleIntegrator, identityLUT]
  norm_num

theorem zeroScale_run_solve_only :
    ({ sampleIntegrator with n_dac := 0 } : Integrator8580).run false [Call.solve 256]
      = some ([32768], { sampleIntegrator with n_dac := 0, vx := 32768, vc := 0 }) := by
  simp only [Integrator8580.run, Integrator8580.call, zeroScale_solve,
    Option.map_some', Option.toList, List.append_nil]

/-! ## The `solve` step -/

/-- C1: whenever `solve` completes (its assertions pass, or they are compiled out), the
new `chargeState` is `vc + n_dac * ((nVgt - vx)^2 - Vgdt^2)`, where `Vgdt = nVgt - vi`
if `vi < nVgt` and `0` otherwise, and `vx`, `vc` are the values from before the call. -/
theorem solve_chargeState (NDEBUG : Bool) (s : Integrator8580) (vi out : ℚ)
    (t : Integrator8580) (h : s.solve NDEBUG vi = some (out, t)) :
    t.vc = s.vc + s.n_dac *
      ((s.nVgt - s.vx) ^ 2 - (if vi < s.nVgt then s.nVgt - vi else 0) ^ 2) := by
  obtain ⟨-, -, hvc, -⟩ := solve_eq_some NDEBUG s vi out t h
  rw [hvc]
  ring

theorem solve_chargeState_witness :
    sampleIntegrator.solve false 256 =
        some (32766.5, { sampleIntegrator with vx := 32769.5, vc := 196608 }) ∧
      ({ sampleIntegrator with vx := 32769.5, vc := 196608 } : Integrator8580).vc =
        sampleIntegrator.vc + sampleIntegrator.n_dac *
          ((sampleIntegrator.nVgt - sampleIntegrator.vx) ^ 2
            - (if (256 : ℚ) < sampleIntegrator.nVgt then sampleIntegrator.nVgt - 256 else 0) ^ 2) :=
  ⟨sampleIntegrator_solve,
    solve_chargeState false sampleIntegrator 256 _ _ sampleIntegrator_solve⟩

/-- C2: whenever `solve` completes, the new `nodeVoltage` is the table's output at
`vc' / 65536 / 2 + 32768` and the returned value is the new `nodeVoltage` minus
`vc' / 65536`, where `vc'` is the `chargeState` left by this same call. -/
theorem solve_nodeVoltage_output (NDEBUG : Bool) (s : Integrator8580) (vi out : ℚ)
    (t : Integrator8580) (h : s.solve NDEBUG vi = some (out, t)) :
    t.vx = s.opamp_rev.output (t.vc / 65536 / 2 + 32768) ∧ out = t.vx - t.vc / 65536 := by
  obtain ⟨-, -, -, hvx, hout, -⟩ := solve_eq_some NDEBUG s vi out t h
  exact ⟨hvx, hout⟩

theorem solve_nodeVoltage_output_witness :
    sampleIntegrator.solve false 256 =
        some (32766.5, { sampleIntegrator with vx := 32769.5, vc := 196608 }) ∧
      (({ sampleIntegrator with vx := 32769.5, vc := 196608 } : Integrator8580).vx =
          sampleIntegrator.opamp_rev.output
            (({ sampleIntegrator with vx := 32769.5, vc := 196608 } : Integrator8580).vc
              / 65536 / 2 + 32768) ∧
        (32766.5 : ℚ) =
          ({ sampleIntegrator with vx := 32769.5, vc := 196608 } : Integrator8580).vx
            - ({ sampleIntegrator with vx := 32769.5, vc := 196608 } : Integrator8580).vc
              / 65536) :=
  ⟨sampleIntegrator_solve,
    solve_nodeVoltage_output false sampleIntegrator 256 _ _ sampleIntegrator_solve⟩

/-- C3: whenever `solve` completes, an input `vi >= nVgt` (in particular `vi = nVgt`)
takes the saturation branch, the charge added being `n_dac * (nVgt - vx)^2`, and an
input `vi < nVgt` takes the triode branch with `Vgdt = nVgt - vi`. -/
theorem solve_region_switch (NDEBUG : Bool) (s : Integrator8580) (vi out : ℚ)
    (t : Integrator8580) (h : s.solve NDEBUG vi = some (out, t)) :
    (s.nVgt ≤ vi → t.vc = s.vc + s.n_dac * (s.nVgt - s.vx) ^ 2) ∧
    (vi < s.nVgt →
      t.vc = s.vc + s.n_dac * ((s.nVgt - s.vx) ^ 2 - (s.nVgt - vi) ^ 2)) := by
  obtain ⟨-, -, hvc, -⟩ := solve_eq_some NDEBUG s vi out t h
  constructor
  · intro hle
    rw [hvc, if_neg (not_lt.mpr hle)]
    ring
  · intro hlt
    rw [hvc, if_pos hlt]
    ring

theorem solve_region_switch_witness :
    sampleIntegrator.solve false 512 =
        some (32766, { sampleIntegrator with vx := 32770, vc := 262144 }) ∧
      ((sampleIntegrator.nVgt ≤ 512 →
          ({ sampleIntegrator with vx := 32770, vc := 262144 } : Integrator8580).vc =
            sampleIntegrator.vc
              + sampleIntegrator.n_dac * (sampleIntegrator.nVgt - sampleIntegrator.vx) ^ 2) ∧
        ((512 : ℚ) < sampleIntegrator.nVgt →
          ({ sampleIntegrator with vx := 32770, vc := 262144 } : Integrator8580).vc =
            sampleIntegrator.vc + sampleIntegrator.n_dac *
              ((sampleIntegrator.nVgt - sampleIntegrator.vx) ^ 2
                - (sampleIntegrator.nVgt - 512) ^ 2))) :=
  ⟨sampleIntegrator_solve_boundary,
    solve_region_switch false sampleIntegrator 512 _ _ sampleIntegrator_solve_boundary⟩

/-! ## The configuration setters and the constructor -/

/-- C4: on an integrator constructed with threshold `Vth`, floor `vmin` and scale `N16`
(after any calls made on it since), a completed `setV v` leaves
`nVgt = N16 * (4.76 * v - Vth - vmin)`, and the call completes exactly when assertions
are compiled out or that value lies strictly between `-0.5` and `65535.5`. -/
theorem setV_gateVoltageOffset (NDEBUG : Bool) (opamp_rev : LUT)
    (Vth denorm C uCox vmin N16 nVgt0 n_dac0 : ℚ) (s0 : Integrator8580) (calls : List Call)
    (outs : List ℚ) (s : Integrator8580) (v : ℚ)
    (hnew : Integrator8580.new NDEBUG opamp_rev Vth denorm C uCox vmin N16 nVgt0 n_dac0
      = some s0)
    (hrun : s0.run NDEBUG calls = some (outs, s)) :
    (∀ t, s.setV NDEBUG v = some t → t.nVgt = N16 * (4.76 * v - Vth - vmin)) ∧
    ((∃ t, s.setV NDEBUG v = some t) ↔
      (NDEBUG = true ∨
        (-0.5 < N16 * (4.76 * v - Vth - vmin) ∧ N16 * (4.76 * v - Vth - vmin) < 65535.5))) := by
  obtain ⟨-, hs0⟩ := (new_eq_some _ _ _ _ _ _ _ _ _ _ _).mp hnew
  obtain ⟨-, hVth, -, hvmin, hN16⟩ := run_constants NDEBUG calls s0 outs s hrun
  have eVth : s.Vth = Vth := by rw [hVth, hs0]
  have evmin : s.vmin = vmin := by rw [hvmin, hs0]
  have eN16 : s.N16 = N16 := by rw [hN16, hs0]
  constructor
  · intro t ht
    obtain ⟨-, rfl⟩ := (setV_eq_some NDEBUG s v t).mp ht
    simp only [eVth, evmin, eN16]
  · constructor
    · rintro ⟨t, ht⟩
      have h := ((setV_eq_some NDEBUG s v t).mp ht).1
      rw [eVth, evmin, eN16] at h
      exact h
    · intro h
      refine ⟨_, (setV_eq_some NDEBUG s v _).mpr ⟨?_, rfl⟩⟩
      rw [eVth, evmin, eN16]
      exact h

theorem setV_gateVoltageOffset_witness :
    Integrator8580.new false identityLUT 6.14 1.0 470e-12 1.0e-4 0 512 0 0
        = some { sampleIntegrator with n_dac := 0 } ∧
      ({ sampleIntegrator with n_dac := 0 } : Integrator8580).run false [Call.setFc 9.4]
        = some ([], sampleIntegrator) ∧
      ((∀ t, sampleIntegrator.setV false 1.6 = some t →
          t.nVgt = 512 * (4.76 * 1.6 - 6.14 - 0)) ∧
        ((∃ t, sampleIntegrator.setV false 1.6 = some t) ↔
          (false = true ∨
            (-0.5 < (512 : ℚ) * (4.76 * 1.6 - 6.14 - 0) ∧
              (512 : ℚ) * (4.76 * 1.6 - 6.14 - 0) < 65535.5)))) :=
  ⟨sampleIntegrator_new, sampleIntegrator_run,
    setV_gateVoltageOffset false identityLUT 6.14 1.0 470e-12 1.0e-4 0 512 0 0 _
      [Call.setFc 9.4] [] sampleIntegrator 1.6 sampleIntegrator_new sampleIntegrator_run⟩

/-- C5: on an integrator constructed with denormalization factor `denorm`, capacitance
`C` and transconductance `uCox` (after any calls made on it since), `setFc wl` leaves
`n_dac = denorm * (uCox / 2 * 1.0e-6 / C) * wl`; the result is linear in `wl`, and
`setFc 0` leaves `n_dac = 0`. -/
theorem setFc_currentScale (NDEBUG : Bool) (opamp_rev : LUT)
    (Vth denorm C uCox vmin N16 nVgt0 n_dac0 : ℚ) (s0 : Integrator8580) (calls : List Call)
    (outs : List ℚ) (s : Integrator8580) (wl : ℚ)
    (hnew : Integrator8580.new NDEBUG opamp_rev Vth denorm C uCox vmin N16 nVgt0 n_dac0
      = some s0)
    (hrun : s0.run NDEBUG calls = some (outs, s)) :
    (s.setFc wl).n_dac = denorm * (uCox / 2 * 1.0e-6 / C) * wl ∧
    (∀ a b w1 w2 : ℚ,
      (s.setFc (a * w1 + b * w2)).n_dac = a * (s.setFc w1).n_dac + b * (s.setFc w2).n_dac) ∧
    (s.setFc 0).n_dac = 0 := by
  obtain ⟨-, hs0⟩ := (new_eq_some _ _ _ _ _ _ _ _ _ _ _).mp hnew
  obtain ⟨-, -, hnKp, -, -⟩ := run_constants NDEBUG calls s0 outs s hrun
  have enKp : s.nKp = denorm * (uCox / 2 * 1.0e-6 / C) := by rw [hnKp, hs0]
  refine ⟨?_, ?_, ?_⟩
  · simp only [Integrator8580.setFc, enKp]
  · intro a b w1 w2
    simp only [Integrator8580.setFc]
    ring
  · simp only [Integrator8580.setFc, mul_zero]

theorem setFc_currentScale_witness :
    Integrator8580.new false identityLUT 6.14 1.0 470e-12 1.0e-4 0 512 0 0
        = some { sampleIntegrator with n_dac := 0 } ∧
      ({ sampleIntegrator with n_dac := 0 } : Integrator8580).run false [Call.setFc 9.4]
        = some ([], sampleIntegrator) ∧
      ((sampleIntegrator.setFc 0.5).n_dac = 1.0 * (1.0e-4 / 2 * 1.0e-6 / 470e-12) * 0.5 ∧
        (∀ a b w1 w2 : ℚ,
          (sampleIntegrator.setFc (a * w1 + b * w2)).n_dac =
            a * (sampleIntegrator.setFc w1).n_dac + b * (sampleIntegrator.setFc w2).n_dac) ∧
        (sampleIntegrator.setFc 0).n_dac = 0) :=
  ⟨sampleIntegrator_new, sampleIntegrator_run,
    setFc_currentScale false identityLUT 6.14 1.0 470e-12 1.0e-4 0 512 0 0 _
      [Call.setFc 9.4] [] sampleIntegrator 0.5 sampleIntegrator_new sampleIntegrator_run⟩

/-- C6: `setFc` changes no member other than `n_dac` (so `nVgt`, `vx` and `vc` are kept),
and a completed `setV` changes no member other than `nVgt` (so `n_dac`, `vx` and `vc`
are kept). -/
theorem setters_isolated (NDEBUG : Bool) (s : Integrator8580) (wl v : ℚ)
    (t : Integrator8580) (h : s.setV NDEBUG v = some t) :
    (s.setFc wl = { s with n_dac := (s.setFc wl).n_dac } ∧
      (s.setFc wl).nVgt = s.nVgt ∧ (s.setFc wl).vx = s.vx ∧ (s.setFc wl).vc = s.vc) ∧
    (t = { s with nVgt := t.nVgt } ∧ t.n_dac = s.n_dac ∧ t.vx = s.vx ∧ t.vc = s.vc) := by
  obtain ⟨-, rfl⟩ := (setV_eq_some NDEBUG s v t).mp h
  exact ⟨⟨rfl, rfl, rfl, rfl⟩, ⟨rfl, rfl, rfl, rfl⟩⟩

theorem setters_isolated_witness :
    sampleIntegrator.setV false 1.6 = some { sampleIntegrator with nVgt := 755.712 } ∧
      ((sampleIntegrator.setFc 0.5
            = { sampleIntegrator with n_dac := (sampleIntegrator.setFc 0.5).n_dac } ∧
          (sampleIntegrator.setFc 0.5).nVgt = sampleIntegrator.nVgt ∧
          (sampleIntegrator.setFc 0.5).vx = sampleIntegrator.vx ∧
          (sampleIntegrator.setFc 0.5).vc = sampleIntegrator.vc) ∧
        (({ sampleIntegrator with nVgt := 755.712 } : Integrator8580)
            = { sampleIntegrator with
                nVgt := ({ sampleIntegrator with nVgt := 755.712 } : Integrator8580).nVgt } ∧
          ({ sampleIntegrator with nVgt := 755.712 } : Integrator8580).n_dac
            = sampleIntegrator.n_dac ∧
          ({ sampleIntegrator with nVgt := 755.712 } : Integrator8580).vx
            = sampleIntegrator.vx ∧
          ({ sampleIntegrator with nVgt := 755.712 } : Integrator8580).vc
            = sampleIntegrator.vc)) :=
  ⟨sampleIntegrator_setV,
    setters_isolated false sampleIntegrator 0.5 1.6 _ sampleIntegrator_setV⟩

/-! ## The two checked conditions -/

/-- C7, as the code has it: in a sequence of calls made on a successfully constructed
integrator whose assertions all pass, every `solve` call is made on an object with
`vx < nVgt` (the calls before it complete, and the object they leave satisfies the
relation that `solve` asserts on entry). -/
theorem subthreshold_checked_at_solve (opamp_rev : LUT)
    (Vth denorm C uCox vmin N16 nVgt0 n_dac0 : ℚ) (s0 : Integrator8580) (calls : List Call)
    (vi : ℚ) (outs : List ℚ) (t : Integrator8580)
    (hnew : Integrator8580.new false opamp_rev Vth denorm C uCox vmin N16 nVgt0 n_dac0
      = some s0)
    (hrun : s0.run false (calls ++ [Call.solve vi]) = some (outs, t)) :
    ∃ outs0 s, s0.run false calls = some (outs0, s) ∧ s.vx < s.nVgt ∧
      s.Vth = Vth ∧ s.vmin = vmin ∧ s.N16 = N16 := by
  obtain ⟨-, hs0⟩ := (new_eq_some _ _ _ _ _ _ _ _ _ _ _).mp hnew
  obtain ⟨outs0, s, o, hs, hlast⟩ := run_append_singleton false calls (Call.solve vi) s0 outs t hrun
  obtain ⟨-, hVth, -, hvmin, hN16⟩ := run_constants false calls s0 outs0 s hs
  simp only [Integrator8580.call, Option.map_eq_some', Prod.mk.injEq] at hlast
  obtain ⟨⟨out, u⟩, hu, -, -⟩ := hlast
  obtain ⟨hpre, -⟩ := solve_eq_some false s vi out u hu
  refine ⟨outs0, s, hs, ?_, by rw [hVth, hs0], by rw [hvmin, hs0], by rw [hN16, hs0]⟩
  rcases hpre with hpre | hpre
  · cases hpre
  · exact hpre

theorem subthreshold_checked_at_solve_witness :
    Integrator8580.new false identityLUT 6.14 1.0 470e-12 1.0e-4 0 512 0 0
        = some { sampleIntegrator with n_dac := 0 } ∧
      ({ sampleIntegrator with n_dac := 0 } : Integrator8580).run false
          ([Call.setFc 9.4] ++ [Call.solve 256])
        = some ([32766.5], { sampleIntegrator with vx := 32769.5, vc := 196608 }) ∧
      ∃ outs0 s,
        ({ sampleIntegrator with n_dac := 0 } : Integrator8580).run false [Call.setFc 9.4]
          = some (outs0, s) ∧ s.vx < s.nVgt ∧ s.Vth = 6.14 ∧ s.vmin = 0 ∧ s.N16 = 512 :=
  ⟨sampleIntegrator_new, sampleIntegrator_run_solve,
    subthreshold_checked_at_solve identityLUT 6.14 1.0 470e-12 1.0e-4 0 512 0 0 _
      [Call.setFc 9.4] 256 _ _ sampleIntegrator_new sampleIntegrator_run_solve⟩

/-- C7 as stated fails: right after a successful construction with `Vth = 7.5`,
`vmin = 0`, `N16 = 1` the object has `vx = 0` and `nVgt = -0.36`; and after a successful
construction, `setFc(9.4)` and `solve(256)` with the identity table the object has
`vx = 32769.5` and `nVgt = 512`.  In both reachable states `vx < nVgt` is false. -/
theorem subthreshold_invariant_counterexample :
    (Integrator8580.new false identityLUT 7.5 1.0 470e-12 1.0e-4 0 1 0 0
          = some lowGateIntegrator ∧
        lowGateIntegrator.run false [] = some ([], lowGateIntegrator) ∧
        ¬ (lowGateIntegrator.vx < lowGateIntegrator.nVgt)) ∧
      (Integrator8580.new false identityLUT 6.14 1.0 470e-12 1.0e-4 0 512 0 0
          = some { sampleIntegrator with n_dac := 0 } ∧
        ({ sampleIntegrator with n_dac := 0 } : Integrator8580).run false
            ([Call.setFc 9.4] ++ [Call.solve 256])
          = some ([32766.5], { sampleIntegrator with vx := 32769.5, vc := 196608 }) ∧
        ¬ (({ sampleIntegrator with vx := 32769.5, vc := 196608 } : Integrator8580).vx
            < ({ sampleIntegrator with vx := 32769.5, vc := 196608 } : Integrator8580).nVgt)) := by
  refine ⟨⟨lowGateIntegrator_new, rfl, ?_⟩, ⟨sampleIntegrator_new, sampleIntegrator_run_solve, ?_⟩⟩
  · norm_num [lowGateIntegrator]
  · norm_num [sampleIntegrator]

/-- C8, as the code has it: when `solve` completes with assertions enabled, the argument
at which the table is looked up, `vc' / 65536 / 2 + 32768` for the updated charge `vc'`,
is strictly below `65536`. -/
theorem solve_lookup_argument_lt (s : Integrator8580) (vi out : ℚ) (t : Integrator8580)
    (h : s.solve false vi = some (out, t)) :
    t.vx = s.opamp_rev.output (t.vc / 65536 / 2 + 32768) ∧
      t.vc / 65536 / 2 + 32768 < 65536 := by
  obtain ⟨-, hlt, -, hvx, -, -⟩ := solve_eq_some false s vi out t h
  refine ⟨hvx, ?_⟩
  rcases hlt with hlt | hlt
  · cases hlt
  · exact hlt

theorem solve_lookup_argument_lt_witness :
    sampleIntegrator.solve false 256 =
        some (32766.5, { sampleIntegrator with vx := 32769.5, vc := 196608 }) ∧
      (({ sampleIntegrator with vx := 32769.5, vc := 196608 } : Integrator8580).vx =
          sampleIntegrator.opamp_rev.output
            (({ sampleIntegrator with vx := 32769.5, vc := 196608 } : Integrator8580).vc
              / 65536 / 2 + 32768) ∧
        ({ sampleIntegrator with vx := 32769.5, vc := 196608 } : Integrator8580).vc
          / 65536 / 2 + 32768 < 65536) :=
  ⟨sampleIntegrator_solve,
    solve_lookup_argument_lt sampleIntegrator 256 _ _ sampleIntegrator_solve⟩

/-- C8 as stated fails: on the sample object (reached by construction and `setFc(9.4)`),
`solve(-130560)` passes both assertions, leaves `vc = -17179607040` and looks the table
up at `-98302`, which the identity table hands back as the new `vx`; that argument is
below `0`. -/
theorem solve_lookup_argument_counterexample :
    Integrator8580.new false identityLUT 6.14 1.0 470e-12 1.0e-4 0 512 0 0
        = some { sampleIntegrator with n_dac := 0 } ∧
      ({ sampleIntegrator with n_dac := 0 } : Integrator8580).run false [Call.setFc 9.4]
        = some ([], sampleIntegrator) ∧
      sampleIntegrator.solve false (-130560) =
        some (163838, { sampleIntegrator with vx := -98302, vc := -17179607040 }) ∧
      (-17179607040 : ℚ) / 65536 / 2 + 32768 = -98302 ∧
      ¬ ((0 : ℚ) ≤ -17179607040 / 65536 / 2 + 32768 ∧
          (-17179607040 : ℚ) / 65536 / 2 + 32768 ≤ 65535) := by
  refine ⟨sampleIntegrator_new, sampleIntegrator_run, sampleIntegrator_solve_low, ?_, ?_⟩
  · norm_num
  · norm_num

/-- C9, as the code has it: with threshold `1.31`, denormalization `1.0`, capacitance
`470e-12`, transconductance `1.0e-4` and floor `1.5`, constructing with scale `N16` and
then calling `setV(1.5)` passes the assertions exactly when
`-0.5 < N16 * 4.33 < 65535.5`; for `N16 = 65536` the asserted value is `283770.88` and
the constructor itself is aborted. -/
theorem scenario_gate_assertion (opamp_rev : LUT) (N16 nVgt0 n_dac0 : ℚ) :
    ((∃ s, Integrator8580.new false opamp_rev 1.31 1.0 470e-12 1.0e-4 1.5 N16 nVgt0 n_dac0
          = some s ∧ s.setV false 1.5 = some s) ↔
        (-0.5 < N16 * 4.33 ∧ N16 * 4.33 < 65535.5)) ∧
      (65536 : ℚ) * (4.76 * 1.5 - 1.31 - 1.5) = 283770.88 ∧
      Integrator8580.new false opamp_rev 1.31 1.0 470e-12 1.0e-4 1.5 65536 nVgt0 n_dac0
        = none := by
  have e : (4.76 : ℚ) * 1.5 - 1.31 - 1.5 = 4.33 := by norm_num
  refine ⟨⟨?_, ?_⟩, by norm_num, ?_⟩
  · rintro ⟨s, hs, -⟩
    have h := ((new_eq_some _ _ _ _ _ _ _ _ _ _ _).mp hs).1
    rcases h with h | h
    · cases h
    · rw [e] at h
      exact h
  · intro h
    have hr : false = true ∨
        (N16 * (4.76 * 1.5 - 1.31 - 1.5) > -0.5 ∧ N16 * (4.76 * 1.5 - 1.31 - 1.5) < 65535.5) := by
      rw [e]
      exact Or.inr h
    have hs := (new_eq_some false opamp_rev 1.31 1.0 470e-12 1.0e-4 1.5 N16 nVgt0 n_dac0 _).mpr
      ⟨hr, rfl⟩
    exact ⟨_, hs, (setV_after_new _ _ _ _ _ _ _ _ _ _ _ hs)⟩
  · cases hn : Integrator8580.new false opamp_rev 1.31 1.0 470e-12 1.0e-4 1.5 65536 nVgt0 n_dac0 with
    | none => rfl
    | some s =>
      have h := ((new_eq_some _ _ _ _ _ _ _ _ _ _ _).mp hn).1
      rcases h with h | h
      · cases h
      · rw [e] at h
        norm_num at h

/-- C9 as stated fails: with the scenario's constants and scale `1 << 16` the constructor
is aborted by the assertion of its own `setV(1.5)`, because `65536 * 4.33 = 283770.88`
is not below `65535.5`. -/
theorem scenario_counterexample :
    Integrator8580.new false identityLUT 1.31 1.0 470e-12 1.0e-4 1.5
        ((1 <<< 16 : ℕ) : ℚ) 0 0 = none ∧
      ¬ ((-0.5 : ℚ) < 65536 * (4.76 * 1.5 - 1.31 - 1.5) ∧
          (65536 : ℚ) * (4.76 * 1.5 - 1.31 - 1.5) < 65535.5) := by
  constructor
  · rw [shiftLeft_16_cast]
    cases hn : Integrator8580.new false identityLUT 1.31 1.0 470e-12 1.0e-4 1.5 65536 0 0 with
    | none => rfl
    | some s =>
      have h := ((new_eq_some _ _ _ _ _ _ _ _ _ _ _).mp hn).1
      rcases h with h | h
      · cases h
      · norm_num at h
  · norm_num

/-- C10: a successfully constructed integrator has `vx = 0`, `vc = 0` and
`nVgt = N16 * (4.76 * 1.5 - Vth - vmin)`, and `setV 1.5` made on it completes and
returns the very same object. -/
theorem new_rest_state (NDEBUG : Bool) (opamp_rev : LUT)
    (Vth denorm C uCox vmin N16 nVgt0 n_dac0 : ℚ) (s : Integrator8580)
    (hnew : Integrator8580.new NDEBUG opamp_rev Vth denorm C uCox vmin N16 nVgt0 n_dac0
      = some s) :
    s.vx = 0 ∧ s.vc = 0 ∧ s.nVgt = N16 * (4.76 * 1.5 - Vth - vmin) ∧
      s.setV NDEBUG 1.5 = some s := by
  have hset := setV_after_new _ _ _ _ _ _ _ _ _ _ _ hnew
  obtain ⟨-, rfl⟩ := (new_eq_some _ _ _ _ _ _ _ _ _ _ _).mp hnew
  exact ⟨rfl, rfl, rfl, hset⟩

theorem new_rest_state_witness :
    Integrator8580.new false identityLUT 6.14 1.0 470e-12 1.0e-4 0 512 0 0
        = some { sampleIntegrator with n_dac := 0 } ∧
      (({ sampleIntegrator with n_dac := 0 } : Integrator8580).vx = 0 ∧
        ({ sampleIntegrator with n_dac := 0 } : Integrator8580).vc = 0 ∧
        ({ sampleIntegrator with n_dac := 0 } : Integrator8580).nVgt
          = 512 * (4.76 * 1.5 - 6.14 - 0) ∧
        ({ sampleIntegrator with n_dac := 0 } : Integrator8580).setV false 1.5
          = some { sampleIntegrator with n_dac := 0 }) :=
  ⟨sampleIntegrator_new,
    new_rest_state false identityLUT 6.14 1.0 470e-12 1.0e-4 0 512 0 0 _ sampleIntegrator_new⟩

/-! ## Reproducibility and the rescaling constant -/

/-- The value of `n_dac` plays no part in `setV`. -/
theorem setV_n_dac (NDEBUG : Bool) (s : Integrator8580) (a v : ℚ) :
    ({ s with n_dac := a } : Integrator8580).setV NDEBUG v
      = (s.setV NDEBUG v).map (fun t => { t with n_dac := a }) := by
  by_cases h : NDEBUG = true ∨
      (s.N16 * (4.76 * v - s.Vth - s.vmin) > -0.5 ∧
        s.N16 * (4.76 * v - s.Vth - s.vmin) < 65535.5)
  · rw [(setV_eq_some NDEBUG s v _).mpr ⟨h, rfl⟩,
      (setV_eq_some NDEBUG { s with n_dac := a } v _).mpr ⟨h, rfl⟩]
    rfl
  · have h0 : s.setV NDEBUG v = none := by
      cases hn : s.setV NDEBUG v with
      | none => rfl
      | some t => exact absurd ((setV_eq_some _ _ _ _).mp hn).1 h
    have h1 : ({ s with n_dac := a } : Integrator8580).setV NDEBUG v = none := by
      cases hn : ({ s with n_dac := a } : Integrator8580).setV NDEBUG v with
      | none => rfl
      | some t => exact absurd ((setV_eq_some _ _ _ _).mp hn).1 h
    rw [h0, h1]
    rfl

/-- Once `setFc` is called after `setV` calls only, the `n_dac` the sequence started from
plays no part in what the sequence returns and leaves. -/
theorem run_setFc_first (NDEBUG : Bool) (wl : ℚ) (cs : List Call) (pre : List Call) :
    (∀ c ∈ pre, ∃ v, c = Call.setV v) →
    ∀ (s : Integrator8580) (a : ℚ),
      ({ s with n_dac := a } : Integrator8580).run NDEBUG (pre ++ Call.setFc wl :: cs)
        = s.run NDEBUG (pre ++ Call.setFc wl :: cs) := by
  induction pre with
  | nil =>
    intro _ s a
    rfl
  | cons c pre ih =>
    intro hpre s a
    obtain ⟨v, rfl⟩ := hpre c (List.mem_cons_self c pre)
    have hrest : ∀ c ∈ pre, ∃ v, c = Call.setV v :=
      fun c hc => hpre c (List.mem_cons_of_mem _ hc)
    rw [List.cons_append, Integrator8580.run, Integrator8580.run]
    simp only [Integrator8580.call, setV_n_dac]
    cases hs : s.setV NDEBUG v with
    | none => rfl
    | some t =>
      simp only [Option.map_some']
      rw [ih hrest t a]

/-- Sequences in which `setFc` is called before the first `solve`: whatever `nVgt` and
`n_dac` held when the constructor started, the sequence returns the same outputs and
leaves the same object. -/
theorem new_run_setFc_first (NDEBUG : Bool) (opamp_rev : LUT)
    (Vth denorm C uCox vmin N16 nVgt0 n_dac0 nVgt1 n_dac1 wl : ℚ) (pre cs : List Call)
    (hpre : ∀ c ∈ pre, ∃ v, c = Call.setV v) :
    (Integrator8580.new NDEBUG opamp_rev Vth denorm C uCox vmin N16 nVgt0 n_dac0).bind
        (fun s => s.run NDEBUG (pre ++ Call.setFc wl :: cs))
      = (Integrator8580.new NDEBUG opamp_rev Vth denorm C uCox vmin N16 nVgt1 n_dac1).bind
        (fun s => s.run NDEBUG (pre ++ Call.setFc wl :: cs)) := by
  by_cases hr : NDEBUG = true ∨
      (N16 * (4.76 * 1.5 - Vth - vmin) > -0.5 ∧ N16 * (4.76 * 1.5 - Vth - vmin) < 65535.5)
  · rw [(new_eq_some NDEBUG opamp_rev Vth denorm C uCox vmin N16 nVgt0 n_dac0 _).mpr ⟨hr, rfl⟩,
      (new_eq_some NDEBUG opamp_rev Vth denorm C uCox vmin N16 nVgt1 n_dac1 _).mpr ⟨hr, rfl⟩]
    simp only [Option.some_bind]
    exact (run_setFc_first NDEBUG wl cs pre hpre
        { opamp_rev := opamp_rev
          vx := 0
          vc := 0
          nVgt := N16 * (4.76 * 1.5 - Vth - vmin)
          n_dac := 0
          Vth := Vth
          nKp := denorm * (uCox / 2 * 1.0e-6 / C)
          vmin := vmin
          N16 := N16 } n_dac0).trans
      (run_setFc_first NDEBUG wl cs pre hpre _ n_dac1).symm
  · have h0 : ∀ a b, Integrator8580.new NDEBUG opamp_rev Vth denorm C uCox vmin N16 a b
        = none := by
      intro a b
      cases hn : Integrator8580.new NDEBUG opamp_rev Vth denorm C uCox vmin N16 a b with
      | none => rfl
      | some s => exact absurd ((new_eq_some _ _ _ _ _ _ _ _ _ _ _).mp hn).1 hr
    rw [h0, h0]

/-- C11, evaluated where it fails: the constructor gives `n_dac` no value, so two
constructions with the same table and the same constants can start from different
`n_dac` (here `0` and `1`); the one-call sequence `solve(256)`, made before any `setFc`,
then returns `32768` in one run and `32766.5` in the other. -/
theorem solve_before_setFc_outputs_differ :
    Integrator8580.new false identityLUT 6.14 1.0 470e-12 1.0e-4 0 512 0 0
        = some { sampleIntegrator with n_dac := 0 } ∧
      Integrator8580.new false identityLUT 6.14 1.0 470e-12 1.0e-4 0 512 0 1
        = some sampleIntegrator ∧
      (({ sampleIntegrator with n_dac := 0 } : Integrator8580).run false [Call.solve 256]).map
          Prod.fst = some [32768] ∧
      (sampleIntegrator.run false [Call.solve 256]).map Prod.fst = some [32766.5] ∧
      (Integrator8580.new false identityLUT 6.14 1.0 470e-12 1.0e-4 0 512 0 0).bind
          (fun s => (s.run false [Call.solve 256]).map Prod.fst) ≠
        (Integrator8580.new false identityLUT 6.14 1.0 470e-12 1.0e-4 0 512 0 1).bind
          (fun s => (s.run false [Call.solve 256]).map Prod.fst) := by
  refine ⟨sampleIntegrator_new, sampleIntegrator_new_one, ?_, ?_, ?_⟩
  · rw [zeroScale_run_solve_only]
    rfl
  · rw [sampleIntegrator_run_solve_only]
    rfl
  · rw [sampleIntegrator_new, sampleIntegrator_new_one]
    simp only [Option.some_bind, zeroScale_run_solve_only, sampleIntegrator_run_solve_only,
      Option.map_some', ne_eq, Option.some.injEq, List.cons.injEq, and_true]
    norm_num

/-- C12, as the code has it: `solve` rescales the charge by the literal `65536`, whatever
scale `N16` the object was constructed with: a completed call looks the table up at
`vc' / 65536 / 2 + 32768` and returns `vx' - vc' / 65536`, the same call on an object that
differs only in `N16` returns the same value and leaves the same `vx'` and `vc'`, and the
two rescalings agree when `N16 = 65536`. -/
theorem solve_scale_fixed (NDEBUG : Bool) (s : Integrator8580) (N16' vi out : ℚ)
    (t : Integrator8580) (h : s.solve NDEBUG vi = some (out, t)) :
    ({ s with N16 := N16' } : Integrator8580).solve NDEBUG vi
        = some (out, { t with N16 := N16' }) ∧
      t.vx = s.opamp_rev.output (t.vc / 65536 / 2 + 32768) ∧
      out = t.vx - t.vc / 65536 ∧
      (s.N16 = 65536 →
        t.vx = s.opamp_rev.output (t.vc / s.N16 / 2 + 32768) ∧ out = t.vx - t.vc / s.N16) := by
  obtain ⟨-, -, -, hvx, hout, -⟩ := solve_eq_some NDEBUG s vi out t h
  refine ⟨?_, hvx, hout, ?_⟩
  · unfold Integrator8580.solve at h ⊢
    rw [shiftLeft_15_cast, shiftLeft_16_cast] at h ⊢
    simp only [assert_bind_eq_some, Option.pure_def, Option.some.injEq, Prod.mk.injEq] at h ⊢
    obtain ⟨h1, h2, h3, h4⟩ := h
    refine ⟨h1, h2, h3, ?_⟩
    rw [← h4]
  · intro hN
    rw [hN]
    exact ⟨hvx, hout⟩

theorem solve_scale_fixed_witness :
    unitScaleIntegrator.solve false 16384 =
        some (26624, { unitScaleIntegrator with vx := 38912, vc := 805306368 }) ∧
      (({ unitScaleIntegrator with N16 := 512 } : Integrator8580).solve false 16384
          = some (26624, { ({ unitScaleIntegrator with vx := 38912, vc := 805306368 } :
              Integrator8580) with N16 := 512 }) ∧
        ({ unitScaleIntegrator with vx := 38912, vc := 805306368 } : Integrator8580).vx
          = unitScaleIntegrator.opamp_rev.output
              (({ unitScaleIntegrator with vx := 38912, vc := 805306368 } : Integrator8580).vc
                / 65536 / 2 + 32768) ∧
        (26624 : ℚ)
          = ({ unitScaleIntegrator with vx := 38912, vc := 805306368 } : Integrator8580).vx
            - ({ unitScaleIntegrator with vx := 38912, vc := 805306368 } : Integrator8580).vc
              / 65536 ∧
        (unitScaleIntegrator.N16 = 65536 →
          ({ unitScaleIntegrator with vx := 38912, vc := 805306368 } : Integrator8580).vx
            = unitScaleIntegrator.opamp_rev.output
                (({ unitScaleIntegrator with vx := 38912, vc := 805306368 } : Integrator8580).vc
                  / unitScaleIntegrator.N16 / 2 + 32768) ∧
          (26624 : ℚ)
            = ({ unitScaleIntegrator with vx := 38912, vc := 805306368 } : Integrator8580).vx
              - ({ unitScaleIntegrator with vx := 38912, vc := 805306368 } : Integrator8580).vc
                / unitScaleIntegrator.N16)) :=
  ⟨unitScaleIntegrator_solve,
    solve_scale_fixed false unitScaleIntegrator 512 16384 _ _ unitScaleIntegrator_solve⟩

/-- C12 as stated fails: the sample object was constructed with `N16 = 512`; its
`solve(256)` leaves `vc = 196608`, looks the table up at `32769.5` (the identity table
hands it back as `vx`) and returns `32766.5`, whereas `vc / N16 / 2 + 32768 = 32960` and
`vx - vc / N16 = 32385.5`. -/
theorem solve_scale_counterexample :
    Integrator8580.new false identityLUT 6.14 1.0 470e-12 1.0e-4 0 512 0 0
        = some { sampleIntegrator with n_dac := 0 } ∧
      ({ sampleIntegrator with n_dac := 0 } : Integrator8580).run false [Call.setFc 9.4]
        = some ([], sampleIntegrator) ∧
      sampleIntegrator.N16 = 512 ∧
      sampleIntegrator.solve false 256 =
        some (32766.5, { sampleIntegrator with vx := 32769.5, vc := 196608 }) ∧
      sampleIntegrator.opamp_rev.output ((196608 : ℚ) / sampleIntegrator.N16 / 2 + 32768)
        = 32960 ∧
      ¬ (({ sampleIntegrator with vx := 32769.5, vc := 196608 } : Integrator8580).vx
          = sampleIntegrator.opamp_rev.output
              (({ sampleIntegrator with vx := 32769.5, vc := 196608 } : Integrator8580).vc
                / sampleIntegrator.N16 / 2 + 32768)) ∧
      ¬ ((32766.5 : ℚ)
          = ({ sampleIntegrator with vx := 32769.5, vc := 196608 } : Integrator8580).vx
            - ({ sampleIntegrator with vx := 32769.5, vc := 196608 } : Integrator8580).vc
              / sampleIntegrator.N16) := by
  refine ⟨sampleIntegrator_new, sampleIntegrator_run, rfl, sampleIntegrator_solve, ?_, ?_, ?_⟩
  · norm_num [sampleIntegrator, identityLUT]
  · norm_num [sampleIntegrator, identityLUT]
  · norm_num [sampleIntegrator]

/-! ## How the charge responds to the input -/

/-- C14: on an object with `vx < nVgt` and `n_dac > 0`, the charge a completed `solve`
adds is `n_dac * ((nVgt - vx)^2 - Vgdt^2)`; it is positive when `vi > vx`, zero when
`vi = vx` (the charge is left as it was) and negative when `vi < vx`. -/
theorem solve_charge_toward_input (NDEBUG : Bool) (s : Integrator8580) (vi out : ℚ)
    (t : Integrator8580) (hpre : s.vx < s.nVgt) (hdac : 0 < s.n_dac)
    (h : s.solve NDEBUG vi = some (out, t)) :
    t.vc - s.vc = s.n_dac *
        ((s.nVgt - s.vx) ^ 2 - (if vi < s.nVgt then s.nVgt - vi else 0) ^ 2) ∧
      (s.vx < vi → 0 < t.vc - s.vc) ∧
      (vi = s.vx → t.vc - s.vc = 0 ∧ t.vc = s.vc) ∧
      (vi < s.vx → t.vc - s.vc < 0) := by
  obtain ⟨-, -, hvc, -⟩ := solve_eq_some NDEBUG s vi out t h
  have hinc : t.vc - s.vc = s.n_dac *
      ((s.nVgt - s.vx) ^ 2 - (if vi < s.nVgt then s.nVgt - vi else 0) ^ 2) := by
    rw [hvc]
    ring
  refine ⟨hinc, ?_, ?_, ?_⟩
  · intro hlt
    rw [hinc]
    apply mul_pos hdac
    split_ifs with hc
    · nlinarith
    · nlinarith
  · intro heq
    have hz : t.vc - s.vc = 0 := by
      rw [hinc, heq, if_pos hpre]
      ring
    exact ⟨hz, by linarith⟩
  · intro hlt
    rw [hinc, if_pos (lt_trans hlt hpre)]
    apply mul_neg_of_pos_of_neg hdac
    nlinarith

theorem solve_charge_toward_input_witness :
    sampleIntegrator.vx < sampleIntegrator.nVgt ∧ 0 < sampleIntegrator.n_dac ∧
      sampleIntegrator.solve false 256 =
        some (32766.5, { sampleIntegrator with vx := 32769.5, vc := 196608 }) ∧
      (({ sampleIntegrator with vx := 32769.5, vc := 196608 } : Integrator8580).vc
            - sampleIntegrator.vc
          = sampleIntegrator.n_dac *
            ((sampleIntegrator.nVgt - sampleIntegrator.vx) ^ 2
              - (if (256 : ℚ) < sampleIntegrator.nVgt then sampleIntegrator.nVgt - 256
                  else 0) ^ 2) ∧
        (sampleIntegrator.vx < 256 →
          0 < ({ sampleIntegrator with vx := 32769.5, vc := 196608 } : Integrator8580).vc
            - sampleIntegrator.vc) ∧
        ((256 : ℚ) = sampleIntegrator.vx →
          ({ sampleIntegrator with vx := 32769.5, vc := 196608 } : Integrator8580).vc
              - sampleIntegrator.vc = 0 ∧
            ({ sampleIntegrator with vx := 32769.5, vc := 196608 } : Integrator8580).vc
              = sampleIntegrator.vc) ∧
        ((256 : ℚ) < sampleIntegrator.vx →
          ({ sampleIntegrator with vx := 32769.5, vc := 196608 } : Integrator8580).vc
            - sampleIntegrator.vc < 0)) :=
  ⟨by norm_num [sampleIntegrator], by norm_num [sampleIntegrator], sampleIntegrator_solve,
    solve_charge_toward_input false sampleIntegrator 256 _ _ (by norm_num [sampleIntegrator])
      (by norm_num [sampleIntegrator]) sampleIntegrator_solve⟩

/-- C15: on an object with `n_dac >= 0`, if `solve` completes on an input `vi2` then it
completes on every input `vi1 <= vi2`, leaving a charge that is not larger; for an input
at or above `nVgt` the charge left is `vc + n_dac * (nVgt - vx)^2`; and with a monotone
table the `vx` left for `vi1` is not larger than the one left for `vi2`. -/
theorem solve_monotone_saturating (NDEBUG : Bool) (s : Integrator8580) (vi1 vi2 out2 : ℚ)
    (t2 : Integrator8580) (hdac : 0 ≤ s.n_dac) (hle : vi1 ≤ vi2)
    (h2 : s.solve NDEBUG vi2 = some (out2, t2)) :
    ∃ out1 t1, s.solve NDEBUG vi1 = some (out1, t1) ∧ t1.vc ≤ t2.vc ∧
      (s.nVgt ≤ vi1 → t1.vc = s.vc + s.n_dac * (s.nVgt - s.vx) ^ 2) ∧
      (s.nVgt ≤ vi2 → t2.vc = s.vc + s.n_dac * (s.nVgt - s.vx) ^ 2) ∧
      (Monotone s.opamp_rev.output → t1.vx ≤ t2.vx) := by
  obtain ⟨c1, c2, hvc2, hvx2, -, -⟩ := solve_eq_some NDEBUG s vi2 out2 t2 h2
  obtain ⟨hnn, hanti⟩ := Vgdt_antitone s.nVgt vi1 vi2 hle
  have hsq : (if vi2 < s.nVgt then s.nVgt - vi2 else 0) * (if vi2 < s.nVgt then s.nVgt - vi2 else 0)
      ≤ (if vi1 < s.nVgt then s.nVgt - vi1 else 0) * (if vi1 < s.nVgt then s.nVgt - vi1 else 0) :=
    mul_self_le_mul_self hnn hanti
  have hmono : s.vc + s.n_dac * ((s.nVgt - s.vx) * (s.nVgt - s.vx)
        - (if vi1 < s.nVgt then s.nVgt - vi1 else 0) * (if vi1 < s.nVgt then s.nVgt - vi1 else 0))
      ≤ t2.vc := by
    rw [hvc2]
    have := mul_le_mul_of_nonneg_left
      (sub_le_sub_left hsq ((s.nVgt - s.vx) * (s.nVgt - s.vx))) hdac
    linarith
  have hcheck : NDEBUG = true ∨ (s.vc + s.n_dac * ((s.nVgt - s.vx) * (s.nVgt - s.vx)
        - (if vi1 < s.nVgt then s.nVgt - vi1 else 0) * (if vi1 < s.nVgt then s.nVgt - vi1 else 0)))
        / 65536 / 2 + 32768 < 65536 := by
    rcases c2 with c2 | c2
    · exact Or.inl c2
    · right
      have hdiv : (s.vc + s.n_dac * ((s.nVgt - s.vx) * (s.nVgt - s.vx)
          - (if vi1 < s.nVgt then s.nVgt - vi1 else 0)
            * (if vi1 < s.nVgt then s.nVgt - vi1 else 0))) / 65536 / 2
          ≤ t2.vc / 65536 / 2 := by
        apply div_le_div_of_nonneg_right _ (by norm_num)
        exact div_le_div_of_nonneg_right hmono (by norm_num)
      linarith
  obtain ⟨out1, t1, h1⟩ := solve_isSome_of_checks NDEBUG s vi1 c1 hcheck
  obtain ⟨-, -, hvc1, hvx1, -, -⟩ := solve_eq_some NDEBUG s vi1 out1 t1 h1
  have hvc : t1.vc ≤ t2.vc := by
    rw [hvc1]
    exact hmono
  refine ⟨out1, t1, h1, hvc, ?_, ?_, ?_⟩
  · intro hge
    rw [hvc1, if_neg (not_lt.mpr hge)]
    ring
  · intro hge
    rw [hvc2, if_neg (not_lt.mpr hge)]
    ring
  · intro hm
    rw [hvx1, hvx2]
    apply hm
    have hdiv : t1.vc / 65536 / 2 ≤ t2.vc / 65536 / 2 := by
      apply div_le_div_of_nonneg_right _ (by norm_num)
      exact div_le_div_of_nonneg_right hvc (by norm_num)
    linarith

theorem solve_monotone_saturating_witness :
    0 ≤ sampleIntegrator.n_dac ∧ (128 : ℚ) ≤ 256 ∧
      sampleIntegrator.solve false 256 =
        some (32766.5, { sampleIntegrator with vx := 32769.5, vc := 196608 }) ∧
      ∃ out1 t1, sampleIntegrator.solve false 128 = some (out1, t1) ∧
        t1.vc ≤ ({ sampleIntegrator with vx := 32769.5, vc := 196608 } : Integrator8580).vc ∧
        (sampleIntegrator.nVgt ≤ 128 →
          t1.vc = sampleIntegrator.vc
            + sampleIntegrator.n_dac * (sampleIntegrator.nVgt - sampleIntegrator.vx) ^ 2) ∧
        (sampleIntegrator.nVgt ≤ 256 →
          ({ sampleIntegrator with vx := 32769.5, vc := 196608 } : Integrator8580).vc
            = sampleIntegrator.vc
              + sampleIntegrator.n_dac * (sampleIntegrator.nVgt - sampleIntegrator.vx) ^ 2) ∧
        (Monotone sampleIntegrator.opamp_rev.output →
          t1.vx ≤ ({ sampleIntegrator with vx := 32769.5, vc := 196608 } : Integrator8580).vx) :=
  ⟨by norm_num [sampleIntegrator], by norm_num, sampleIntegrator_solve,
    solve_monotone_saturating false sampleIntegrator 128 256 _ _
      (by norm_num [sampleIntegrator]) (by norm_num) sampleIntegrator_solve⟩

end reSIDfp

/-! ## Auxiliary lemmas for `SmartPtr.h` -/

theorem new_Inv {T : Type} [Zero T] (buffer : ℤ) (bufferLen : ulint_smartpt) (bufOwner : Bool) :
    (SmartPtrBase_sidtt.new buffer bufferLen bufOwner : SmartPtrBase_sidtt T).Inv := by
  unfold SmartPtrBase_sidtt.new SmartPtrBase_sidtt.Inv
  split_ifs with h
  · exact ⟨rfl, by simp, fun h0 => absurd h0 h⟩
  · exact ⟨by simp, le_refl _, fun _ => ⟨rfl, rfl⟩⟩

theorem setBuffer_Inv {T : Type} (s : SmartPtr_sidtt T) (buffer : ℤ)
    (bufferLen : ulint_smartpt) : (SmartPtr_sidtt.setBuffer s buffer bufferLen).Inv := by
  unfold SmartPtr_sidtt.setBuffer SmartPtrBase_sidtt.Inv
  split_ifs with h
  · exact ⟨rfl, by simp, fun h0 => absurd h0 h⟩
  · exact ⟨by simp, le_refl _, fun _ => ⟨rfl, rfl⟩⟩

/-- What `operator ++` does, by cases on `good()`. -/
theorem operator_inc_eq {T : Type} (s : SmartPtrBase_sidtt T) :
    (s.pBufCurrent < s.bufEnd ∧ s.operator_inc = { s with pBufCurrent := s.pBufCurrent + 1 }) ∨
      (¬ s.pBufCurrent < s.bufEnd ∧ s.operator_inc = { s with status := false }) := by
  by_cases h : s.pBufCurrent < s.bufEnd
  · exact Or.inl ⟨h, by simp [SmartPtrBase_sidtt.operator_inc, SmartPtrBase_sidtt.good, h]⟩
  · exact Or.inr ⟨h, by simp [SmartPtrBase_sidtt.operator_inc, SmartPtrBase_sidtt.good, h]⟩

theorem operator_inc_int_eq {T : Type} (s : SmartPtrBase_sidtt T) :
    s.operator_inc_int = s.operator_inc := rfl

/-- What `operator --` does, by cases on `fail()`. -/
theorem operator_dec_eq {T : Type} (s : SmartPtrBase_sidtt T) :
    (s.pBufCurrent ≠ s.bufEnd ∧ s.operator_dec = { s with pBufCurrent := s.pBufCurrent - 1 }) ∨
      (s.pBufCurrent = s.bufEnd ∧ s.operator_dec = { s with status := false }) := by
  by_cases h : s.pBufCurrent = s.bufEnd
  · exact Or.inr ⟨h, by simp [SmartPtrBase_sidtt.operator_dec, SmartPtrBase_sidtt.fail, h]⟩
  · exact Or.inl ⟨h, by simp [SmartPtrBase_sidtt.operator_dec, SmartPtrBase_sidtt.fail, h]⟩

theorem operator_dec_int_eq {T : Type} (s : SmartPtrBase_sidtt T) :
    s.operator_dec_int = s.operator_dec := rfl

/-- What `operator +=` does, by cases on `checkIndex(offset)`. -/
theorem operator_add_assign_eq {T : Type} (s : SmartPtrBase_sidtt T) (offset : ulint_smartpt) :
    (s.pBufCurrent + (offset : ℤ) < s.bufEnd ∧
        s.operator_add_assign offset = { s with pBufCurrent := s.pBufCurrent + (offset : ℤ) }) ∨
      (¬ s.pBufCurrent + (offset : ℤ) < s.bufEnd ∧
        s.operator_add_assign offset = { s with status := false }) := by
  by_cases h : s.pBufCurrent + (offset : ℤ) < s.bufEnd
  · exact Or.inl ⟨h,
      by simp [SmartPtrBase_sidtt.operator_add_assign, SmartPtrBase_sidtt.checkIndex, h]⟩
  · exact Or.inr ⟨h,
      by simp [SmartPtrBase_sidtt.operator_add_assign, SmartPtrBase_sidtt.checkIndex, h]⟩

/-- What `operator -=` does, by cases on its test. -/
theorem operator_sub_assign_eq {T : Type} (s : SmartPtrBase_sidtt T) (offset : ulint_smartpt) :
    (s.bufBegin ≤ s.pBufCurrent - (offset : ℤ) ∧
        s.operator_sub_assign offset = { s with pBufCurrent := s.pBufCurrent - (offset : ℤ) }) ∨
      (¬ s.bufBegin ≤ s.pBufCurrent - (offset : ℤ) ∧
        s.operator_sub_assign offset = { s with status := false }) := by
  by_cases h : s.bufBegin ≤ s.pBufCurrent - (offset : ℤ)
  · exact Or.inl ⟨h, by simp [SmartPtrBase_sidtt.operator_sub_assign, h]⟩
  · exact Or.inr ⟨h, by simp [SmartPtrBase_sidtt.operator_sub_assign, h]⟩

/-- What a completed `operator[]` does, by cases on `checkIndex(index)`. -/
theorem operator_index_eq_some {T : Type} (mem : ℤ → Option T) (s : SmartPtrBase_sidtt T)
    (index : ulint_smartpt) (x : T) (t : SmartPtrBase_sidtt T)
    (h : s.operator_index mem index = some (x, t)) :
    (s.pBufCurrent + (index : ℤ) < s.bufEnd ∧ mem (s.pBufCurrent + (index : ℤ)) = some x ∧
        t = s) ∨
      (¬ s.pBufCurrent + (index : ℤ) < s.bufEnd ∧ x = s.dummy ∧
        t = { s with status := false }) := by
  by_cases hc : s.pBufCurrent + (index : ℤ) < s.bufEnd
  · left
    simp only [SmartPtrBase_sidtt.operator_index, SmartPtrBase_sidtt.checkIndex, hc,
      decide_True, if_true, Option.map_eq_some', Prod.mk.injEq] at h
    obtain ⟨y, hy, rfl, rfl⟩ := h
    exact ⟨hc, hy, rfl⟩
  · right
    simp only [SmartPtrBase_sidtt.operator_index, SmartPtrBase_sidtt.checkIndex, hc,
      decide_False, Bool.false_eq_true, if_false, Option.some.injEq, Prod.mk.injEq] at h
    obtain ⟨rfl, rfl⟩ := h
    exact ⟨hc, rfl, rfl⟩

/-- `operator*` is `operator[]` at index `0`. -/
theorem operator_deref_eq_index {T : Type} (mem : ℤ → Option T) (s : SmartPtrBase_sidtt T) :
    s.operator_deref mem = s.operator_index mem 0 := by
  simp [SmartPtrBase_sidtt.operator_deref, SmartPtrBase_sidtt.operator_index,
    SmartPtrBase_sidtt.good, SmartPtrBase_sidtt.checkIndex]

/-- What `reset` does, by cases on `bufLen`. -/
theorem reset_eq {T : Type} (s : SmartPtrBase_sidtt T) :
    (s.bufLen ≠ 0 ∧ s.reset = (true, { s with pBufCurrent := s.bufBegin, status := true })) ∨
      (s.bufLen = 0 ∧ s.reset = (false, { s with status := false })) := by
  by_cases h : s.bufLen = 0
  · exact Or.inr ⟨h, by simp [SmartPtrBase_sidtt.reset, h]⟩
  · exact Or.inl ⟨h, by simp [SmartPtrBase_sidtt.reset, h]⟩

/-- Every operation keeps `Inv`. -/
theorem call_Inv {T : Type} (mem : ℤ → Option T) (s : SmartPtrBase_sidtt T) (op : CursorOp)
    (t : SmartPtrBase_sidtt T) (hs : s.Inv) (h : s.call mem op = some t) : t.Inv := by
  obtain ⟨h1, h2, h3⟩ := hs
  cases op with
  | inc =>
    simp only [SmartPtrBase_sidtt.call, Option.some.injEq] at h
    subst h
    rcases operator_inc_eq s with ⟨hc, he⟩ | ⟨hc, he⟩
    · rw [he]
      refine ⟨h1, ?_, fun h0 => ?_⟩
      · show s.pBufCurrent + 1 ≤ s.bufEnd
        omega
      · exact absurd (h3 h0).1 (ne_of_lt hc)
    · rw [he]
      exact ⟨h1, h2, fun h0 => ⟨(h3 h0).1, rfl⟩⟩
  | inc_int =>
    simp only [SmartPtrBase_sidtt.call, Option.some.injEq, operator_inc_int_eq] at h
    subst h
    rcases operator_inc_eq s with ⟨hc, he⟩ | ⟨hc, he⟩
    · rw [he]
      refine ⟨h1, ?_, fun h0 => ?_⟩
      · show s.pBufCurrent + 1 ≤ s.bufEnd
        omega
      · exact absurd (h3 h0).1 (ne_of_lt hc)
    · rw [he]
      exact ⟨h1, h2, fun h0 => ⟨(h3 h0).1, rfl⟩⟩
  | dec =>
    simp only [SmartPtrBase_sidtt.call, Option.some.injEq] at h
    subst h
    rcases operator_dec_eq s with ⟨hc, he⟩ | ⟨hc, he⟩
    · rw [he]
      refine ⟨h1, ?_, fun h0 => ?_⟩
      · show s.pBufCurrent - 1 ≤ s.bufEnd
        omega
      · exact absurd (h3 h0).1 hc
    · rw [he]
      exact ⟨h1, h2, fun h0 => ⟨(h3 h0).1, rfl⟩⟩
  | dec_int =>
    simp only [SmartPtrBase_sidtt.call, Option.some.injEq, operator_dec_int_eq] at h
    subst h
    rcases operator_dec_eq s with ⟨hc, he⟩ | ⟨hc, he⟩
    · rw [he]
      refine ⟨h1, ?_, fun h0 => ?_⟩
      · show s.pBufCurrent - 1 ≤ s.bufEnd
        omega
      · exact absurd (h3 h0).1 hc
    · rw [he]
      exact ⟨h1, h2, fun h0 => ⟨(h3 h0).1, rfl⟩⟩
  | add_assign offset =>
    simp only [SmartPtrBase_sidtt.call, Option.some.injEq] at h
    subst h
    rcases operator_add_assign_eq s offset with ⟨hc, he⟩ | ⟨hc, he⟩
    · rw [he]
      refine ⟨h1, ?_, fun h0 => ?_⟩
      · show s.pBufCurrent + (offset : ℤ) ≤ s.bufEnd
        omega
      · have := (h3 h0).1
        omega
    · rw [he]
      exact ⟨h1, h2, fun h0 => ⟨(h3 h0).1, rfl⟩⟩
  | sub_assign offset =>
    simp only [SmartPtrBase_sidtt.call, Option.some.injEq] at h
    subst h
    rcases operator_sub_assign_eq s offset with ⟨hc, he⟩ | ⟨hc, he⟩
    · rw [he]
      refine ⟨h1, ?_, fun h0 => ?_⟩
      · show s.pBufCurrent - (offset : ℤ) ≤ s.bufEnd
        omega
      · have h4 := (h3 h0).1
        have h5 := (h3 h0).2
        have h6 : (s.bufLen : ℤ) = 0 := by exact_mod_cast h0
        refine ⟨?_, h5⟩
        show s.pBufCurrent - (offset : ℤ) = s.bufEnd
        omega
    · rw [he]
      exact ⟨h1, h2, fun h0 => ⟨(h3 h0).1, rfl⟩⟩
  | deref =>
    simp only [SmartPtrBase_sidtt.call, operator_deref_eq_index, Option.map_eq_some'] at h
    obtain ⟨⟨x, u⟩, hu, rfl⟩ := h
    rcases operator_index_eq_some mem s 0 x u hu with ⟨-, -, he⟩ | ⟨-, -, he⟩
    · rw [he]
      exact ⟨h1, h2, h3⟩
    · rw [he]
      exact ⟨h1, h2, fun h0 => ⟨(h3 h0).1, rfl⟩⟩
  | index i =>
    simp only [SmartPtrBase_sidtt.call, Option.map_eq_some'] at h
    obtain ⟨⟨x, u⟩, hu, rfl⟩ := h
    rcases operator_index_eq_some mem s i x u hu with ⟨-, -, he⟩ | ⟨-, -, he⟩
    · rw [he]
      exact ⟨h1, h2, h3⟩
    · rw [he]
      exact ⟨h1, h2, fun h0 => ⟨(h3 h0).1, rfl⟩⟩
  | reset =>
    simp only [SmartPtrBase_sidtt.call, Option.some.injEq] at h
    subst h
    rcases reset_eq s with ⟨hc, he⟩ | ⟨hc, he⟩
    · rw [he]
      refine ⟨h1, ?_, fun h0 => absurd h0 hc⟩
      show s.bufBegin ≤ s.bufEnd
      omega
    · rw [he]
      exact ⟨h1, h2, fun h0 => ⟨(h3 h0).1, rfl⟩⟩
  | setBuffer buffer bufferLen =>
    simp only [SmartPtrBase_sidtt.call, Option.some.injEq] at h
    subst h
    exact setBuffer_Inv s buffer bufferLen

/-- A completed non-empty sequence splits into its first operation and the rest. -/
theorem cursor_run_cons {T : Type} (mem : ℤ → Option T) (s : SmartPtrBase_sidtt T)
    (op : CursorOp) (ops : List CursorOp) (u : SmartPtrBase_sidtt T)
    (h : s.run mem (op :: ops) = some u) :
    ∃ t, s.call mem op = some t ∧ t.run mem ops = some u := by
  rw [SmartPtrBase_sidtt.run] at h
  cases hc : s.call mem op with
  | none => rw [hc] at h; cases h
  | some t =>
    rw [hc] at h
    exact ⟨t, rfl, h⟩

/-- Every completed sequence of operations keeps `Inv`. -/
theorem run_Inv {T : Type} (mem : ℤ → Option T) (ops : List CursorOp) :
    ∀ (s u : SmartPtrBase_sidtt T), s.Inv → s.run mem ops = some u → u.Inv := by
  induction ops with
  | nil =>
    intro s u hs h
    simp only [SmartPtrBase_sidtt.run, Option.some.injEq] at h
    subst h
    exact hs
  | cons op ops ih =>
    intro s u hs h
    obtain ⟨t, hc, hr⟩ := cursor_run_cons mem s op ops u h
    exact ih t u (call_Inv mem s op t hs hc) hr

theorem arrayAt_add {T : Type} (buffer : ℤ) (data : List T) (j : ℕ) :
    arrayAt buffer data (buffer + (j : ℤ)) = data[j]? := by
  unfold arrayAt
  rw [if_pos (by omega), add_sub_cancel_left, Int.toNat_ofNat]

theorem sampleCursor_add_assign :
    sampleCursor.operator_add_assign 1 = { sampleCursor with pBufCurrent := 1001 } := by
  decide

theorem sampleCursor_run :
    sampleCursor.run (arrayAt 1000 sampleBuffer)
        [CursorOp.add_assign 2, CursorOp.inc, CursorOp.dec]
      = some { sampleCursor with pBufCurrent := 1003, status := false } := by
  decide

theorem emptyCursor_run :
    (SmartPtr_sidtt.new 1000 0 false : SmartPtr_sidtt ℕ).run (arrayAt 1000 sampleBuffer)
        [CursorOp.inc, CursorOp.deref, CursorOp.reset]
      = some { bufBegin := 0, bufEnd := 0, pBufCurrent := 0, bufLen := 0, status := false,
               doFree := false, dummy := 0 } := by
  decide

/-- Where the subtraction stays inside the address space, `operator -=` in 64-bit
addresses is `operator -=` in integer arithmetic. -/
theorem operator_sub_assign_wrap_eq {T : Type} (s : SmartPtrBase_sidtt T)
    (offset : ulint_smartpt) (h0 : (offset : ℤ) ≤ s.pBufCurrent)
    (h1 : s.pBufCurrent < 2 ^ 64) :
    s.operator_sub_assign_wrap offset = s.operator_sub_assign offset := by
  have e : ptr_sub64 s.pBufCurrent offset = s.pBufCurrent - (offset : ℤ) := by
    unfold ptr_sub64
    exact Int.emod_eq_of_lt (by omega) (by omega)
  unfold SmartPtrBase_sidtt.operator_sub_assign_wrap SmartPtrBase_sidtt.operator_sub_assign
  rw [e]

/-- With the pointer arithmetic without wrap-around of `operator_sub_assign`: in every
state reached from a constructed cursor by a completed sequence of operations
(`setBuffer` among them), `pBufCurrent <= bufEnd`; `good()` says that the position is
below the length and `fail()` that it equals the length, so exactly one of the two holds;
and when the buffer is empty `good()` is false, `fail()` is true and `status` is false. -/
theorem good_fail_without_wrap {T : Type} [Zero T] (mem : ℤ → Option T) (buffer : ℤ)
    (bufferLen : ulint_smartpt) (bufOwner : Bool) (ops : List CursorOp)
    (s : SmartPtrBase_sidtt T)
    (hrun : (SmartPtr_sidtt.new buffer bufferLen bufOwner : SmartPtr_sidtt T).run mem ops
      = some s) :
    s.pBufCurrent ≤ s.bufEnd ∧
      (s.good = true ↔ s.pBufCurrent - s.bufBegin < (s.bufLen : ℤ)) ∧
      (s.fail = true ↔ s.pBufCurrent - s.bufBegin = (s.bufLen : ℤ)) ∧
      ((s.good = true ∧ s.fail = false) ∨ (s.good = false ∧ s.fail = true)) ∧
      (s.bufLen = 0 → s.good = false ∧ s.fail = true ∧ s.status = false) := by
  obtain ⟨h1, h2, h3⟩ := run_Inv mem ops _ s (new_Inv buffer bufferLen bufOwner) hrun
  refine ⟨h2, ?_, ?_, ?_, ?_⟩
  · simp only [SmartPtrBase_sidtt.good, decide_eq_true_eq]
    omega
  · simp only [SmartPtrBase_sidtt.fail, decide_eq_true_eq]
    omega
  · simp only [SmartPtrBase_sidtt.good, SmartPtrBase_sidtt.fail, decide_eq_true_eq,
      decide_eq_false_iff_not]
    omega
  · intro h0
    obtain ⟨h4, h5⟩ := h3 h0
    simp only [SmartPtrBase_sidtt.good, SmartPtrBase_sidtt.fail, decide_eq_true_eq,
      decide_eq_false_iff_not]
    exact ⟨by omega, h4, h5⟩

theorem good_fail_without_wrap_sample :
    ((SmartPtr_sidtt.new 1000 3 false : SmartPtr_sidtt ℕ).run (arrayAt 1000 sampleBuffer)
          [CursorOp.add_assign 2, CursorOp.inc, CursorOp.dec]
        = some { sampleCursor with pBufCurrent := 1003, status := false } ∧
      (({ sampleCursor with pBufCurrent := 1003, status := false } : SmartPtr_sidtt ℕ).fail
          = true ∧
        ({ sampleCursor with pBufCurrent := 1003, status := false } : SmartPtr_sidtt ℕ).good
          = false)) ∧
      ((SmartPtr_sidtt.new 1000 0 false : SmartPtr_sidtt ℕ).run (arrayAt 1000 sampleBuffer)
          [CursorOp.inc, CursorOp.deref, CursorOp.reset]
        = some { bufBegin := 0, bufEnd := 0, pBufCurrent := 0, bufLen := 0, status := false,
                 doFree := false, dummy := 0 } ∧
        (({ bufBegin := 0, bufEnd := 0, pBufCurrent := 0, bufLen := 0, status := false,
            doFree := false, dummy := 0 } : SmartPtr_sidtt ℕ).bufLen = 0 →
          ({ bufBegin := 0, bufEnd := 0, pBufCurrent := 0, bufLen := 0, status := false,
              doFree := false, dummy := 0 } : SmartPtr_sidtt ℕ).good = false ∧
            ({ bufBegin := 0, bufEnd := 0, pBufCurrent := 0, bufLen := 0, status := false,
                doFree := false, dummy := 0 } : SmartPtr_sidtt ℕ).fail = true ∧
            ({ bufBegin := 0, bufEnd := 0, pBufCurrent := 0, bufLen := 0, status := false,
                doFree := false, dummy := 0 } : SmartPtr_sidtt ℕ).status = false)) :=
  ⟨⟨sampleCursor_run,
      by
        have h := (good_fail_without_wrap (arrayAt 1000 sampleBuffer) 1000 3 false _ _
          sampleCursor_run).2.2.2.1
        rcases h with ⟨hg, -⟩ | ⟨hg, hf⟩
        · exact absurd hg (by decide)
        · exact ⟨hf, hg⟩⟩,
    ⟨emptyCursor_run,
      (good_fail_without_wrap (arrayAt 1000 sampleBuffer) 1000 0 false _ _
        emptyCursor_run).2.2.2.2⟩⟩

/-! ## The buffer cursor -/

/-- C13, evaluated where it fails: on a cursor constructed over a three-element array,
at position `0`, `operator --` moves the cursor to the element before the array and keeps
`status` true (the sibling `operator -=` with offset `1` refuses there); `good()` then holds
and `operator*` reads the element at index `-1`, whatever is stored there; and from the
end position, where stepping back is in bounds, `operator --` refuses. -/
theorem operator_dec_leaves_buffer :
    sampleCursor.tellPos = 0 ∧ sampleCursor.tellLength = 3 ∧
      sampleCursor.run (arrayAt 1000 sampleBuffer) [CursorOp.dec] =
        some { sampleCursor with pBufCurrent := 999 } ∧
      (sampleCursor.operator_dec).pBufCurrent - (sampleCursor.operator_dec).bufBegin = -1 ∧
      (sampleCursor.operator_dec).status = true ∧
      (sampleCursor.operator_dec).good = true ∧
      (sampleCursor.operator_dec).operator_deref (arrayAt 1000 sampleBuffer) = none ∧
      (sampleCursor.operator_dec).operator_deref (arrayAt 999 (42 :: sampleBuffer)) =
        some (42, { sampleCursor with pBufCurrent := 999 }) ∧
      sampleCursor.operator_sub_assign 1 = { sampleCursor with status := false } ∧
      sampleCursor.run (arrayAt 1000 sampleBuffer)
          [CursorOp.add_assign 2, CursorOp.inc, CursorOp.dec]
        = some { sampleCursor with pBufCurrent := 1003, status := false } := by
  decide

/-- C16: each of `++`, `++(int)`, `--`, `--(int)`, `+= k` and `-= k` either changes
`pBufCurrent` alone (by `1` or `k`), or sets `status` to false and changes nothing else; a
completed `operator*` or `operator[]` leaves `pBufCurrent` as it was; and on an object
whose `status` is false every operation other than `reset` and `setBuffer` with a non-zero
length leaves `status` false. -/
theorem cursor_failure_atomic {T : Type} (mem : ℤ → Option T) (s : SmartPtrBase_sidtt T)
    (k : ulint_smartpt) :
    (s.operator_inc = { s with pBufCurrent := s.pBufCurrent + 1 } ∨
        s.operator_inc = { s with status := false }) ∧
      (s.operator_inc_int = { s with pBufCurrent := s.pBufCurrent + 1 } ∨
        s.operator_inc_int = { s with status := false }) ∧
      (s.operator_dec = { s with pBufCurrent := s.pBufCurrent - 1 } ∨
        s.operator_dec = { s with status := false }) ∧
      (s.operator_dec_int = { s with pBufCurrent := s.pBufCurrent - 1 } ∨
        s.operator_dec_int = { s with status := false }) ∧
      (s.operator_add_assign k = { s with pBufCurrent := s.pBufCurrent + (k : ℤ) } ∨
        s.operator_add_assign k = { s with status := false }) ∧
      (s.operator_sub_assign k = { s with pBufCurrent := s.pBufCurrent - (k : ℤ) } ∨
        s.operator_sub_assign k = { s with status := false }) ∧
      (∀ x t, s.operator_deref mem = some (x, t) → t.pBufCurrent = s.pBufCurrent) ∧
      (∀ i x t, s.operator_index mem i = some (x, t) → t.pBufCurrent = s.pBufCurrent) ∧
      (∀ op t, s.status = false → s.call mem op = some t → op ≠ CursorOp.reset →
        (∀ buffer bufferLen, op = CursorOp.setBuffer buffer bufferLen → bufferLen = 0) →
        t.status = false) := by
  have hindex : ∀ i x t, s.operator_index mem i = some (x, t) →
      t.pBufCurrent = s.pBufCurrent ∧ (s.status = false → t.status = false) := by
    intro i x t h
    rcases operator_index_eq_some mem s i x t h with ⟨-, -, he⟩ | ⟨-, -, he⟩
    · rw [he]
      exact ⟨rfl, id⟩
    · rw [he]
      exact ⟨rfl, fun _ => rfl⟩
  have hinc : (s.operator_inc = { s with pBufCurrent := s.pBufCurrent + 1 } ∨
      s.operator_inc = { s with status := false }) :=
    (operator_inc_eq s).imp And.right And.right
  have hdec : (s.operator_dec = { s with pBufCurrent := s.pBufCurrent - 1 } ∨
      s.operator_dec = { s with status := false }) :=
    (operator_dec_eq s).imp And.right And.right
  have hadd : ∀ j : ulint_smartpt,
      (s.operator_add_assign j = { s with pBufCurrent := s.pBufCurrent + (j : ℤ) } ∨
        s.operator_add_assign j = { s with status := false }) :=
    fun j => (operator_add_assign_eq s j).imp And.right And.right
  have hsub : ∀ j : ulint_smartpt,
      (s.operator_sub_assign j = { s with pBufCurrent := s.pBufCurrent - (j : ℤ) } ∨
        s.operator_sub_assign j = { s with status := false }) :=
    fun j => (operator_sub_assign_eq s j).imp And.right And.right
  refine ⟨hinc, hinc, hdec, hdec, hadd k, hsub k, ?_, fun i x t h => (hindex i x t h).1, ?_⟩
  · intro x t h
    rw [operator_deref_eq_index] at h
    exact (hindex 0 x t h).1
  · intro op t hst h hreset hset
    cases op with
    | inc =>
      simp only [SmartPtrBase_sidtt.call, Option.some.injEq] at h
      subst h
      rcases hinc with he | he
      · rw [he]
        exact hst
      · rw [he]
    | inc_int =>
      simp only [SmartPtrBase_sidtt.call, Option.some.injEq, operator_inc_int_eq] at h
      subst h
      rcases hinc with he | he
      · rw [he]
        exact hst
      · rw [he]
    | dec =>
      simp only [SmartPtrBase_sidtt.call, Option.some.injEq] at h
      subst h
      rcases hdec with he | he
      · rw [he]
        exact hst
      · rw [he]
    | dec_int =>
      simp only [SmartPtrBase_sidtt.call, Option.some.injEq, operator_dec_int_eq] at h
      subst h
      rcases hdec with he | he
      · rw [he]
        exact hst
      · rw [he]
    | add_assign j =>
      simp only [SmartPtrBase_sidtt.call, Option.some.injEq] at h
      subst h
      rcases hadd j with he | he
      · rw [he]
        exact hst
      · rw [he]
    | sub_assign j =>
      simp only [SmartPtrBase_sidtt.call, Option.some.injEq] at h
      subst h
      rcases hsub j with he | he
      · rw [he]
        exact hst
      · rw [he]
    | deref =>
      simp only [SmartPtrBase_sidtt.call, operator_deref_eq_index, Option.map_eq_some'] at h
      obtain ⟨⟨x, u⟩, hu, rfl⟩ := h
      exact (hindex 0 x u hu).2 hst
    | index i =>
      simp only [SmartPtrBase_sidtt.call, Option.map_eq_some'] at h
      obtain ⟨⟨x, u⟩, hu, rfl⟩ := h
      exact (hindex i x u hu).2 hst
    | reset => exact absurd rfl hreset
    | setBuffer buffer bufferLen =>
      simp only [SmartPtrBase_sidtt.call, Option.some.injEq] at h
      subst h
      have h0 := hset buffer bufferLen rfl
      subst h0
      rfl

theorem cursor_failure_atomic_witness :
    failedCursor.status = false ∧
      failedCursor.operator_deref (arrayAt 1000 sampleBuffer) = some (7, failedCursor) ∧
      failedCursor.call (arrayAt 1000 sampleBuffer) CursorOp.inc
        = some { failedCursor with pBufCurrent := 1001 } ∧
      ((failedCursor.operator_inc
            = { failedCursor with pBufCurrent := failedCursor.pBufCurrent + 1 } ∨
          failedCursor.operator_inc = { failedCursor with status := false }) ∧
        (failedCursor.operator_inc_int
            = { failedCursor with pBufCurrent := failedCursor.pBufCurrent + 1 } ∨
          failedCursor.operator_inc_int = { failedCursor with status := false }) ∧
        (failedCursor.operator_dec
            = { failedCursor with pBufCurrent := failedCursor.pBufCurrent - 1 } ∨
          failedCursor.operator_dec = { failedCursor with status := false }) ∧
        (failedCursor.operator_dec_int
            = { failedCursor with pBufCurrent := failedCursor.pBufCurrent - 1 } ∨
          failedCursor.operator_dec_int = { failedCursor with status := false }) ∧
        (failedCursor.operator_add_assign 2
            = { failedCursor with pBufCurrent := failedCursor.pBufCurrent + ((2 : ℕ) : ℤ) } ∨
          failedCursor.operator_add_assign 2 = { failedCursor with status := false }) ∧
        (failedCursor.operator_sub_assign 2
            = { failedCursor with pBufCurrent := failedCursor.pBufCurrent - ((2 : ℕ) : ℤ) } ∨
          failedCursor.operator_sub_assign 2 = { failedCursor with status := false }) ∧
        (∀ x t, failedCursor.operator_deref (arrayAt 1000 sampleBuffer) = some (x, t) →
          t.pBufCurrent = failedCursor.pBufCurrent) ∧
        (∀ i x t, failedCursor.operator_index (arrayAt 1000 sampleBuffer) i = some (x, t) →
          t.pBufCurrent = failedCursor.pBufCurrent) ∧
        (∀ op t, failedCursor.status = false →
          failedCursor.call (arrayAt 1000 sampleBuffer) op = some t → op ≠ CursorOp.reset →
          (∀ buffer bufferLen, op = CursorOp.setBuffer buffer bufferLen → bufferLen = 0) →
          t.status = false)) :=
  ⟨by decide, by decide, by decide,
    cursor_failure_atomic (arrayAt 1000 sampleBuffer) failedCursor 2⟩

/-- C17: on a cursor over the array `data` (held in memory from `bufBegin` on) at position
`p >= 0` (so in particular for `0 <= p <= data.length`), `operator[](i)` returns the element of `data` at `p + i`
and leaves the object as it is when `p + i < data.length`, and otherwise returns `dummy`
and sets `status` to false; `operator*` is `operator[](0)`, in value and in object. -/
theorem operator_index_checked {T : Type} (mem : ℤ → Option T) (s : SmartPtrBase_sidtt T)
    (data : List T) (p : ℤ) (i : ulint_smartpt)
    (hend : s.bufEnd = s.bufBegin + (data.length : ℤ))
    (hmem : ∀ j : ℕ, j < data.length → mem (s.bufBegin + (j : ℤ)) = data[j]?)
    (hpos : s.pBufCurrent = s.bufBegin + p) (hp0 : 0 ≤ p) :
    (p + (i : ℤ) < (data.length : ℤ) →
        ∃ x, data[(p + (i : ℤ)).toNat]? = some x ∧ s.operator_index mem i = some (x, s)) ∧
      (¬ p + (i : ℤ) < (data.length : ℤ) →
        s.operator_index mem i = some (s.dummy, { s with status := false })) ∧
      s.operator_deref mem = s.operator_index mem 0 := by
  refine ⟨?_, ?_, operator_deref_eq_index mem s⟩
  · intro hlt
    have hj : (p + (i : ℤ)).toNat < data.length := by omega
    have hc : s.pBufCurrent + (i : ℤ) < s.bufEnd := by omega
    have haddr : s.pBufCurrent + (i : ℤ) = s.bufBegin + (((p + (i : ℤ)).toNat : ℕ) : ℤ) := by
      omega
    refine ⟨data[(p + (i : ℤ)).toNat], List.getElem?_eq_getElem hj, ?_⟩
    simp only [SmartPtrBase_sidtt.operator_index, SmartPtrBase_sidtt.checkIndex, hc,
      decide_True, if_true]
    rw [haddr, hmem _ hj, List.getElem?_eq_getElem hj]
    rfl
  · intro hge
    have hc : ¬ s.pBufCurrent + (i : ℤ) < s.bufEnd := by omega
    simp only [SmartPtrBase_sidtt.operator_index, SmartPtrBase_sidtt.checkIndex, hc,
      decide_False, Bool.false_eq_true, if_false]

theorem operator_index_checked_witness :
    sampleCursor.bufEnd = sampleCursor.bufBegin + (sampleBuffer.length : ℤ) ∧
      sampleCursor.pBufCurrent = sampleCursor.bufBegin + 0 ∧ (0 : ℤ) ≤ 0 ∧
      sampleCursor.operator_index (arrayAt 1000 sampleBuffer) 1 = some (8, sampleCursor) ∧
      (((0 : ℤ) + ((1 : ℕ) : ℤ) < (sampleBuffer.length : ℤ) →
          ∃ x, sampleBuffer[((0 : ℤ) + ((1 : ℕ) : ℤ)).toNat]? = some x ∧
            sampleCursor.operator_index (arrayAt 1000 sampleBuffer) 1
              = some (x, sampleCursor)) ∧
        (¬ (0 : ℤ) + ((1 : ℕ) : ℤ) < (sampleBuffer.length : ℤ) →
          sampleCursor.operator_index (arrayAt 1000 sampleBuffer) 1
            = some (sampleCursor.dummy, { sampleCursor with status := false })) ∧
        sampleCursor.operator_deref (arrayAt 1000 sampleBuffer)
          = sampleCursor.operator_index (arrayAt 1000 sampleBuffer) 0) :=
  ⟨by decide, by decide, by decide, by decide,
    operator_index_checked (arrayAt 1000 sampleBuffer) sampleCursor sampleBuffer 0 1
      (by decide) (fun j _ => arrayAt_add 1000 sampleBuffer j) (by decide) (by decide)⟩

/-- C18, evaluated where it fails: `operator -=` computes `pBufCurrent - offset` in
64-bit addresses, so on the cursor constructed over a three-element array at address
`1000` the offset `2 ^ 64 - 5` gives the address `1005`, which passes the test against
`bufBegin`: the cursor moves to position `5`, past `bufEnd`, with `status` true, and there
`good()` and `fail()` are both false.  On the default-constructed cursor (empty buffer,
null pointers) the offset `1` gives the address `2 ^ 64 - 1`, and again neither `good()`
nor `fail()` holds. -/
theorem operator_sub_assign_passes_end :
    sampleCursor.tellLength = 3 ∧
      ptr_sub64 sampleCursor.pBufCurrent (2 ^ 64 - 5) = 1005 ∧
      sampleCursor.operator_sub_assign_wrap (2 ^ 64 - 5)
        = { sampleCursor with pBufCurrent := 1005 } ∧
      ¬ ((sampleCursor.operator_sub_assign_wrap (2 ^ 64 - 5)).pBufCurrent
          ≤ (sampleCursor.operator_sub_assign_wrap (2 ^ 64 - 5)).bufEnd) ∧
      (sampleCursor.operator_sub_assign_wrap (2 ^ 64 - 5)).status = true ∧
      (sampleCursor.operator_sub_assign_wrap (2 ^ 64 - 5)).good = false ∧
      (sampleCursor.operator_sub_assign_wrap (2 ^ 64 - 5)).fail = false ∧
      (sampleCursor.operator_sub_assign_wrap (2 ^ 64 - 5)).tellPos = 5 ∧
      (SmartPtr_sidtt.new0 : SmartPtr_sidtt ℕ).tellLength = 0 ∧
      (SmartPtr_sidtt.new0 : SmartPtr_sidtt ℕ).operator_sub_assign_wrap 1
        = { (SmartPtr_sidtt.new0 : SmartPtr_sidtt ℕ) with pBufCurrent := 2 ^ 64 - 1 } ∧
      ((SmartPtr_sidtt.new0 : SmartPtr_sidtt ℕ).operator_sub_assign_wrap 1).good = false ∧
      ((SmartPtr_sidtt.new0 : SmartPtr_sidtt ℕ).operator_sub_assign_wrap 1).fail = false := by
  decide

/-- C19: on a cursor over a buffer of length `n` (an `unsigned long` value) at position
`p >= 0`, for an offset `k` with `p + k < n`, `+= k` moves the cursor to `p + k` and the
following `-= k` gives back the object as it was: position `p`, `status` unchanged, and
`tellPos()` reports `p` before and after. -/
theorem seek_round_trip {T : Type} (s : SmartPtrBase_sidtt T) (n : ℕ) (p : ℤ)
    (k : ulint_smartpt) (hend : s.bufEnd = s.bufBegin + (n : ℤ)) (hn : n < 2 ^ 64)
    (hpos : s.pBufCurrent = s.bufBegin + p) (hp0 : 0 ≤ p) (hk : p + (k : ℤ) < (n : ℤ)) :
    (s.operator_add_assign k).pBufCurrent = s.bufBegin + (p + (k : ℤ)) ∧
      (s.operator_add_assign k).status = s.status ∧
      (s.operator_add_assign k).operator_sub_assign k = s ∧
      ((s.operator_add_assign k).operator_sub_assign k).pBufCurrent = s.bufBegin + p ∧
      ((s.operator_add_assign k).operator_sub_assign k).status = s.status ∧
      (s.tellPos : ℤ) = p ∧
      (((s.operator_add_assign k).operator_sub_assign k).tellPos : ℤ) = p := by
  have hadd : s.operator_add_assign k = { s with pBufCurrent := s.pBufCurrent + (k : ℤ) } := by
    rcases operator_add_assign_eq s k with ⟨-, he⟩ | ⟨hc, -⟩
    · exact he
    · exact absurd (by omega) hc
  have hsub : (s.operator_add_assign k).operator_sub_assign k = s := by
    rcases operator_sub_assign_eq (s.operator_add_assign k) k with ⟨-, he⟩ | ⟨hc, -⟩
    · rw [he, hadd]
      simp
    · rw [hadd] at hc
      exact absurd (show s.bufBegin ≤ s.pBufCurrent + (k : ℤ) - (k : ℤ) by omega) hc
  have htell : (s.tellPos : ℤ) = p := by
    unfold SmartPtrBase_sidtt.tellPos
    have hlt : p < 2 ^ 64 := by
      have : (n : ℤ) < 2 ^ 64 := by exact_mod_cast hn
      omega
    rw [hpos, add_sub_cancel_left, Int.emod_eq_of_lt hp0 hlt, Int.toNat_of_nonneg hp0]
  refine ⟨?_, ?_, hsub, ?_, ?_, htell, ?_⟩
  · rw [hadd]
    show s.pBufCurrent + (k : ℤ) = s.bufBegin + (p + (k : ℤ))
    omega
  · rw [hadd]
  · rw [hsub, hpos]
  · rw [hsub]
  · rw [hsub]
    exact htell

theorem seek_round_trip_witness :
    (sampleCursor.operator_inc).bufEnd = (sampleCursor.operator_inc).bufBegin + ((3 : ℕ) : ℤ) ∧
      (3 : ℕ) < 2 ^ 64 ∧
      (sampleCursor.operator_inc).pBufCurrent = (sampleCursor.operator_inc).bufBegin + 1 ∧
      (0 : ℤ) ≤ 1 ∧ (1 : ℤ) + ((1 : ℕ) : ℤ) < ((3 : ℕ) : ℤ) ∧
      ((sampleCursor.operator_inc).operator_add_assign 1).pBufCurrent
          = (sampleCursor.operator_inc).bufBegin + (1 + ((1 : ℕ) : ℤ)) ∧
        ((sampleCursor.operator_inc).operator_add_assign 1).status
          = (sampleCursor.operator_inc).status ∧
        ((sampleCursor.operator_inc).operator_add_assign 1).operator_sub_assign 1
          = sampleCursor.operator_inc ∧
        (((sampleCursor.operator_inc).operator_add_assign 1).operator_sub_assign 1).pBufCurrent
          = (sampleCursor.operator_inc).bufBegin + 1 ∧
        (((sampleCursor.operator_inc).operator_add_assign 1).operator_sub_assign 1).status
          = (sampleCursor.operator_inc).status ∧
        (((sampleCursor.operator_inc).tellPos : ℕ) : ℤ) = 1 ∧
        (((((sampleCursor.operator_inc).operator_add_assign 1).operator_sub_assign 1).tellPos
          : ℕ) : ℤ) = 1 :=
  ⟨by decide, by decide, by decide, by decide, by decide,
    seek_round_trip (sampleCursor.operator_inc) 3 1 1 (by decide) (by decide) (by decide)
      (by decide) (by decide)⟩
